import Mathlib

/-!
# Verification of the LaunchPad_Ai loan-conversation backend

Shallow embedding of the deterministic core of `backend/app` (signal
extraction, offer calculation, underwriting decisioning, per-agent routing,
and the workflow dispatcher) together with proofs about the embedded
definitions.

Modelling conventions, used throughout:

* Python `float` values are modelled as exact rationals (`ℚ`); `round(x, 2)`
  is modelled as exact round-half-to-even at two decimals (`round2` below).
  Binary floating-point representation error is idealized away.
* Python `None` becomes `Option.none`; Python truthiness of an optional
  number (`if x:`) is `pyTruthy` (false for `None` and for `0`).
* Free-text produced by the external LLM collaborator is opaque: each LLM
  call site is a parameter `Option String` (`some s` = the call returned
  `s`, `none` = the call raised).  Bot replies are modelled by the `Resp`
  type which records which template/fallback/LLM output was used; the
  interpolation of names and numbers into the template strings is abstracted
  into constructor arguments.
* Regular-expression searches are compiled by hand to total scanners over
  `List Char`; each compilation is justified in a comment at the definition.
  `\d`, `\w`, `\s` are modelled at their ASCII meaning.
-/

namespace LaunchPad

-- Batteries marks the `Rat` field operations `@[irreducible]`; restore the
-- default reducibility so that concrete rational computations can be
-- settled by kernel reduction (`decide`).
attribute [local semireducible] Rat.add Rat.mul Rat.sub Rat.inv Rat.ofScientific

/-! ## Python-semantics helpers -/

/-- Truthiness of an optional number: Python `if x:` where `x : float | None`. -/
def pyTruthy (x : Option ℚ) : Bool :=
  match x with
  | none => false
  | some v => decide (v ≠ 0)

/-- Python `x or d` for an optional number `x` and a number default `d`. -/
def pyOrQ (x : Option ℚ) (d : ℚ) : ℚ :=
  match x with
  | none => d
  | some v => if v = 0 then d else v

/-- Python `x or y` where both sides are optional numbers. -/
def pyOrOptQ (x y : Option ℚ) : Option ℚ :=
  if pyTruthy x then x else y

/-- Truthiness of an optional string (`None` and `""` are falsy). -/
def pyTruthyStr (x : Option String) : Bool :=
  match x with
  | none => false
  | some s => decide (s ≠ "")

/-- Python `x or y` for optional strings. -/
def pyOrOptStr (x y : Option String) : Option String :=
  if pyTruthyStr x then x else y

/-- Python `int(q)` on a nonnegative or negative rational: truncation
toward zero. -/
def pyInt (q : ℚ) : ℤ :=
  if q < 0 then -(⌊-q⌋) else ⌊q⌋

/-- Round half to even to an integer (Python `round(q)` on an exact value). -/
def roundHalfEven (q : ℚ) : ℤ :=
  if q - (⌊q⌋ : ℚ) < 1/2 then ⌊q⌋
  else if q - (⌊q⌋ : ℚ) > 1/2 then ⌊q⌋ + 1
  else if Even ⌊q⌋ then ⌊q⌋ else ⌊q⌋ + 1

/-- Python `round(q, 2)` idealized to exact rationals. -/
def round2 (q : ℚ) : ℚ :=
  (roundHalfEven (q * 100) : ℚ) / 100

/-! ## OfferCalculator (from `sales_agent.py`)

`SalesAgent._calculate_interest_rate`, `SalesAgent._calculate_emi`,
`SalesAgent._suggest_tenure`, translated line by line. -/

/-- `SalesAgent._calculate_interest_rate(amount, state)`.  The two state
reads are passed as the optional fields the code reads:
`credit_score = state.get("credit_score") or 700` and
`pre_approved = state.get("pre_approved_limit") or 0`; the surcharge guard
`if pre_approved and amount > pre_approved` tests truthiness of the
defaulted value. -/
def calculate_interest_rate (amount : ℚ) (credit_score pre_approved_limit : Option ℚ) : ℚ :=
  let credit_score := pyOrQ credit_score 700
  let pre_approved := pyOrQ pre_approved_limit 0
  let base_rate : ℚ := 10.5
  let base_rate :=
    if credit_score ≥ 800 then base_rate - 1.5
    else if credit_score ≥ 750 then base_rate - 1.0
    else if credit_score ≥ 700 then base_rate - 0.5
    else base_rate
  let base_rate :=
    if pre_approved ≠ 0 ∧ amount > pre_approved then base_rate + 1.0 else base_rate
  round2 base_rate

/-- The unrounded reducing-balance EMI with monthly rate `r` over `n`
months (the expression inside `round(...)` in `_calculate_emi`). -/
def emiExact (principal r : ℚ) (n : ℕ) : ℚ :=
  principal * r * (1 + r) ^ n / ((1 + r) ^ n - 1)

/-- `SalesAgent._calculate_emi(principal, rate, tenure)`. -/
def calculate_emi (principal rate : ℚ) (tenure : ℕ) : ℚ :=
  let monthly_rate := rate / (12 * 100)
  if monthly_rate = 0 then principal / (tenure : ℚ)
  else round2 (principal * monthly_rate * (1 + monthly_rate) ^ tenure
                / ((1 + monthly_rate) ^ tenure - 1))

/-- `SalesAgent._suggest_tenure(amount, salary)`.  Python `//` is floor
division (`Int.fdiv`). -/
def suggest_tenure (amount salary : ℚ) : ℤ :=
  let target_emi := salary * 0.35
  let suggested_tenure := pyInt (amount / (target_emi * 0.9))
  max 12 (min 60 ((Int.fdiv suggested_tenure 12) * 12))

/-! ## UnderwritingDecider (from `underwriting_agent.py`)

`UnderwritingAgent._make_decision`.  The code returns a dict with a
`status` string and, on rejection, a formatted `reason` string and an
`alternative_amount`; the three fixed reason templates are represented by
the tags of `RejectReason` (their interpolated numbers do not affect any
claim). -/

inductive RejectReason where
  | scoreBelowMinimum
  | emiExceedsHalfIncome
  | amountFarExceedsLimit
deriving DecidableEq, Repr

structure Decision where
  status : String
  reason : Option RejectReason
  alternative_amount : Option ℚ
deriving DecidableEq, Repr

/-- `UnderwritingAgent._make_decision(credit_score, loan_amount,
pre_approved_limit, monthly_salary, emi_amount)`, translated rule by rule.
`monthly_salary and monthly_salary > 0` is Python truthiness followed by a
comparison. -/
def make_decision (credit_score loan_amount pre_approved_limit monthly_salary emi_amount : ℚ) :
    Decision :=
  if credit_score < 700 then
    { status := "rejected"
      reason := some .scoreBelowMinimum
      alternative_amount :=
        some (if pre_approved_limit > 0 then pre_approved_limit * 0.5 else 100000) }
  else if loan_amount ≤ pre_approved_limit then
    { status := "approved", reason := none, alternative_amount := none }
  else if loan_amount ≤ pre_approved_limit * 2 then
    if monthly_salary ≠ 0 ∧ monthly_salary > 0 then
      if emi_amount ≤ monthly_salary * 0.5 then
        { status := "approved", reason := none, alternative_amount := none }
      else
        { status := "rejected"
          reason := some .emiExceedsHalfIncome
          alternative_amount := some pre_approved_limit }
    else
      { status := "needs_documents", reason := none, alternative_amount := none }
  else
    { status := "rejected"
      reason := some .amountFarExceedsLimit
      alternative_amount := some pre_approved_limit }

/-- The underwriting rule chain exactly as the specification states it
(§4.3 / claim C1): written from the spec text, to be compared with
`make_decision`. -/
def decideSpec (s a p m e : ℚ) : Decision :=
  if s < 700 then
    { status := "rejected"
      reason := some .scoreBelowMinimum
      alternative_amount := some (if p > 0 then p * 0.5 else 100000) }
  else if a ≤ p then
    { status := "approved", reason := none, alternative_amount := none }
  else if a ≤ 2 * p then
    if m > 0 then
      if e ≤ 0.5 * m then
        { status := "approved", reason := none, alternative_amount := none }
      else
        { status := "rejected"
          reason := some .emiExceedsHalfIncome
          alternative_amount := some p }
    else
      { status := "needs_documents", reason := none, alternative_amount := none }
  else
    { status := "rejected"
      reason := some .amountFarExceedsLimit
      alternative_amount := some p }

/-! ## Character classes and scanning primitives

Hand-compiled counterparts of the `re.search` calls in the agents.  Every
pattern used by the code has the shape «greedy character-class runs, then
literal alternatives, then an optional word boundary», and in each of them
no backtracking into a greedy run can succeed (the construct following each
run can never begin with a character of the run's class), so each greedy
run is compiled to `takeWhile`/`dropWhile` and `re.search` to a leftmost
scan over start positions. -/

/-- ASCII `\d`. -/
def isPyDigit (c : Char) : Bool := c.isDigit

/-- ASCII `\w` (used by `\b`). -/
def isWordChar (c : Char) : Bool := c.isAlphanum || c == '_'

/-- ASCII `\s`. -/
def isPySpace (c : Char) : Bool :=
  c == ' ' || c == '\t' || c == '\n' || c == '\r' || c == '\x0B' || c == '\x0C'

/-- `str.lower()` (ASCII). -/
def pyLower (s : String) : List Char := s.data.map Char.toLower

/-- `str.strip()` on a character list. -/
def pyStrip (l : List Char) : List Char :=
  ((l.dropWhile isPySpace).reverse.dropWhile isPySpace).reverse

/-- `str.lower().strip()`. -/
def pyLowerStrip (s : String) : List Char := pyStrip (pyLower s)

/-- Value of a digit run. -/
def digitsToNat (ds : List Char) : ℕ :=
  ds.foldl (fun acc c => 10 * acc + (c.toNat - ('0').toNat)) 0

/-- `float("<ds>.<fs>")`, as an exact rational. -/
def decimalVal (ds fs : List Char) : ℚ :=
  (digitsToNat ds : ℚ) + (digitsToNat fs : ℚ) / (10 : ℚ) ^ fs.length

/-- `\b` between a word character just consumed and the remaining input. -/
def wordBoundaryAfter : List Char → Bool
  | [] => true
  | c :: _ => !(isWordChar c)

/-- `\b` between the previous character (none = start of string) and a word
character about to be consumed. -/
def boundaryBefore (prev : Option Char) : Bool :=
  match prev with
  | none => true
  | some c => !(isWordChar c)

/-- Literal word `w` followed by `\b`. -/
def litThenBoundary : List Char → List Char → Bool
  | [], l => wordBoundaryAfter l
  | _ :: _, [] => false
  | c :: w, d :: l => c == d && litThenBoundary w l

/-- Ordered alternation of literal alternatives, each followed by `\b`.
Python tries the alternatives left to right; since only success/failure and
the capture group *before* the alternation matter, an unordered `any` is
an equivalent compilation. -/
def matchAnyUnit (units : List (List Char)) (l : List Char) : Bool :=
  units.any (fun u => litThenBoundary u l)

/-- `re.search` for a pattern with no left-context: try every start
position left to right, return the first match. -/
def searchFirst {α : Type} (m : List Char → Option α) : List Char → Option α
  | [] => none
  | c :: t =>
    match m (c :: t) with
    | some v => some v
    | none => searchFirst m t

/-- `re.search` for a pattern whose first element is `\b`: the scanner
additionally tracks the character preceding the current start position. -/
def searchWithPrev {α : Type} (m : Option Char → List Char → Option α) :
    Option Char → List Char → Option α
  | _, [] => none
  | prev, c :: t =>
    match m prev (c :: t) with
    | some v => some v
    | none => searchWithPrev m (some c) t

/-! ## Amount extraction

`MasterAgentLLM._extract_amount` (identical to the first four branches of
`MasterAgentV2._extract_amount`) and `SalesAgent._extract_amount`. -/

/-- Units of the master lakh pattern `(\d+(?:\.\d+)?)\s*(?:lakh|lakhs|lac|l)\b`. -/
def masterLakhUnits : List (List Char) :=
  [['l','a','k','h'], ['l','a','k','h','s'], ['l','a','c'], ['l']]

/-- Units of the sales lakh pattern `(\d+(?:\.\d+)?)\s*(?:lakh|lakhs|l)\b`
(no `lac`). -/
def salesLakhUnits : List (List Char) :=
  [['l','a','k','h'], ['l','a','k','h','s'], ['l']]

/-- Match `(\d+(?:\.\d+)?)\s*(?:units)\b` at the current position.  The
optional fraction is taken when present: if the unit part then fails, the
backtracking alternative (skipping the fraction) would have to match a unit
letter at the `.` character, which is impossible, so no match either way. -/
def matchLakhAt (units : List (List Char)) (l : List Char) : Option ℚ :=
  let ds := l.takeWhile isPyDigit
  let r1 := l.dropWhile isPyDigit
  if ds.isEmpty then none
  else
    let p : List Char × List Char :=
      match r1 with
      | c :: r =>
        if c = '.' then
          let fs := r.takeWhile isPyDigit
          if fs.isEmpty then ([], c :: r) else (fs, r.dropWhile isPyDigit)
        else ([], c :: r)
      | [] => ([], [])
    let r3 := p.2.dropWhile isPySpace
    if matchAnyUnit units r3 then some (decimalVal ds p.1) else none

/-- Match `(\d+)\s*k\b` (master) or `(\d+)k\b` (sales, `allowSpace := false`)
at the current position. -/
def matchKAt (allowSpace : Bool) (l : List Char) : Option ℚ :=
  let ds := l.takeWhile isPyDigit
  let r1 := l.dropWhile isPyDigit
  if ds.isEmpty then none
  else
    let r2 := if allowSpace then r1.dropWhile isPySpace else r1
    match r2 with
    | 'k' :: r => if wordBoundaryAfter r then some ((digitsToNat ds : ℚ)) else none
    | _ => none

/-- The currency character class.  The source file stores the rupee sign as
the three mojibake characters U+00E2 U+201A U+00B9 (a double-encoded `₹`),
so the class `[â‚¹rs\.]` contains those three characters plus `r`, `s`
and `.`. -/
def isRupeeClassChar (c : Char) : Bool :=
  c == Char.ofNat 0xE2 || c == Char.ofNat 0x201A || c == Char.ofNat 0xB9 ||
  c == 'r' || c == 's' || c == '.'

/-- Match the master currency pattern `[â‚¹rs\.]+\s*(\d[\d,]*)` at the
current position; the captured group has its commas removed before
`float(...)`. -/
def matchRupeeAtM (l : List Char) : Option ℚ :=
  let cs := l.takeWhile isRupeeClassChar
  let r1 := l.dropWhile isRupeeClassChar
  if cs.isEmpty then none
  else
    let r2 := r1.dropWhile isPySpace
    match r2 with
    | c :: r =>
      if isPyDigit c then
        let body := r.takeWhile (fun d => isPyDigit d || d == ',')
        some ((digitsToNat ((c :: body).filter isPyDigit) : ℚ))
      else none
    | [] => none

theorem length_dropWhile_le (p : α → Bool) (l : List α) :
    (l.dropWhile p).length ≤ l.length := by
  induction l with
  | nil => simp
  | cons c t ih =>
    by_cases h : p c
    · rw [List.dropWhile_cons_of_pos h]
      exact Nat.le_trans ih (by simp)
    · simp [List.dropWhile_cons, h]

/-- Fuelled worker for `commaGroups` (structural recursion on the fuel so
that the kernel can evaluate it; each step consumes at least two input
characters, so `fuel = length input` always suffices). -/
def commaGroupsGo : ℕ → List Char → List Char × List Char
  | 0, l => ([], l)
  | _ + 1, [] => ([], [])
  | fuel + 1, c :: r =>
    if c = ',' then
      let ds := r.takeWhile isPyDigit
      if ds.isEmpty then ([], c :: r)
      else
        let tailGroups := commaGroupsGo fuel (r.dropWhile isPyDigit)
        (ds ++ tailGroups.1, tailGroups.2)
    else ([], c :: r)

/-- The comma groups `(?:,\d+)*` of the sales currency pattern: returns the
collected digit characters and the rest of the input. -/
def commaGroups (l : List Char) : List Char × List Char :=
  commaGroupsGo l.length l

/-- Match the sales currency pattern
`[â‚¹rs\.]\s*(\d+(?:,\d+)*(?:\.\d+)?)` (a single class character) at the
current position. -/
def matchRupeeAtS (l : List Char) : Option ℚ :=
  match l with
  | c :: r =>
    if isRupeeClassChar c then
      let r2 := r.dropWhile isPySpace
      let ds := r2.takeWhile isPyDigit
      if ds.isEmpty then none
      else
        let cg := commaGroups (r2.dropWhile isPyDigit)
        let fs : List Char :=
          match cg.2 with
          | '.' :: rr => rr.takeWhile isPyDigit
          | _ => []
        some (decimalVal (ds ++ cg.1) fs)
    else none
  | [] => none

/-- Match `\b(\d{5,7})\b` at the current position (master plain-number
branch).  `\d{5,7}` with the trailing `\b` matches exactly when the maximal
digit run here has length 5–7 and is followed by a non-word character or
the end: any shorter amount of digits is followed by a further digit, which
is a word character, so all backtracking alternatives fail. -/
def matchPlainAtM (prev : Option Char) (l : List Char) : Option ℚ :=
  if boundaryBefore prev then
    let ds := l.takeWhile isPyDigit
    if 5 ≤ ds.length ∧ ds.length ≤ 7 ∧ wordBoundaryAfter (l.dropWhile isPyDigit) then
      some ((digitsToNat ds : ℚ))
    else none
  else none

/-- Match `\b(\d{5,})\b` at the current position (sales plain-number
branch); same compilation as `matchPlainAtM` without the upper bound. -/
def matchPlainAtS (prev : Option Char) (l : List Char) : Option ℚ :=
  if boundaryBefore prev then
    let ds := l.takeWhile isPyDigit
    if 5 ≤ ds.length ∧ wordBoundaryAfter (l.dropWhile isPyDigit) then
      some ((digitsToNat ds : ℚ))
    else none
  else none

/-- `MasterAgentLLM._extract_amount(text)`.  The first three branches
search `text.lower()`; the plain-number branch searches the original
`text`. -/
def masterExtractAmount (text : String) : Option ℚ :=
  let tl := pyLower text
  match searchFirst (matchLakhAt masterLakhUnits) tl with
  | some v => some (v * 100000)
  | none =>
  match searchFirst (matchKAt true) tl with
  | some v => some (v * 1000)
  | none =>
  match searchFirst matchRupeeAtM tl with
  | some v => some v
  | none => searchWithPrev matchPlainAtM none text.data

/-- `SalesAgent._extract_amount(text)` (the method lowercases `text` once
and searches the lowered text in all four branches). -/
def salesExtractAmount (text : String) : Option ℚ :=
  let tl := pyLower text
  match searchFirst (matchLakhAt salesLakhUnits) tl with
  | some v => some (v * 100000)
  | none =>
  match searchFirst (matchKAt false) tl with
  | some v => some (v * 1000)
  | none =>
  match searchFirst matchRupeeAtS tl with
  | some v => some v
  | none => searchWithPrev matchPlainAtS none tl

/-! ## Tenure and purpose extraction -/

/-- Match `(\d+)\s*(?:units)` (with `\b` after the unit when
`bound := true`, as in the sales patterns; the master patterns have no
trailing `\b`). -/
def matchIntUnitAt (units : List (List Char)) (bound : Bool) (l : List Char) : Option ℕ :=
  let ds := l.takeWhile isPyDigit
  if ds.isEmpty then none
  else
    let r2 := (l.dropWhile isPyDigit).dropWhile isPySpace
    if units.any (fun u => if bound then litThenBoundary u r2 else u.isPrefixOf r2) then
      some (digitsToNat ds)
    else none

def yearUnits : List (List Char) :=
  [['y','e','a','r'], ['y','e','a','r','s'], ['y','r'], ['y','r','s']]

def monthUnits : List (List Char) :=
  [['m','o','n','t','h'], ['m','o','n','t','h','s'], ['m','o','n']]

/-- `MasterAgentLLM._extract_tenure(msg)` (msg is already lowercased and
stripped by the caller; patterns without trailing `\b`). -/
def masterExtractTenure (msg : List Char) : Option ℕ :=
  match searchFirst (matchIntUnitAt yearUnits false) msg with
  | some y => some (y * 12)
  | none => searchFirst (matchIntUnitAt monthUnits false) msg

/-- `SalesAgent._extract_tenure(text)` (lowercases internally; patterns
with trailing `\b`). -/
def salesExtractTenure (text : String) : Option ℕ :=
  let tl := pyLower text
  match searchFirst (matchIntUnitAt yearUnits true) tl with
  | some y => some (y * 12)
  | none => searchFirst (matchIntUnitAt monthUnits true) tl

/-- Python `needle in hay` for strings: substring containment. -/
def containsSub (needle : List Char) : List Char → Bool
  | [] => needle.isEmpty
  | c :: t => needle.isPrefixOf (c :: t) || containsSub needle t

/-- First purpose category whose keyword set has a member occurring as a
substring of `msg` (`any(k in msg for k in keywords)`), in table order. -/
def findPurpose (table : List (String × List String)) (msg : List Char) : Option String :=
  match table with
  | [] => none
  | (p, kws) :: rest =>
    if kws.any (fun k => containsSub k.data msg) then some p else findPurpose rest msg

/-- The purpose table of `MasterAgentLLM._extract_purpose`. -/
def masterPurposeTable : List (String × List String) :=
  [("home", ["home", "house", "flat", "apartment", "property", "renovation"]),
   ("car", ["car", "vehicle", "bike", "scooter", "two wheeler"]),
   ("wedding", ["wedding", "marriage", "shaadi"]),
   ("education", ["education", "study", "college", "university", "course"]),
   ("medical", ["medical", "hospital", "treatment", "surgery", "health"]),
   ("travel", ["travel", "vacation", "trip", "holiday"]),
   ("business", ["business", "startup", "shop"]),
   ("personal", ["personal", "emergency", "urgent"])]

/-- The purpose table of `SalesAgent._extract_purpose`. -/
def salesPurposeTable : List (String × List String) :=
  [("car", ["car", "vehicle", "bike", "scooter"]),
   ("home", ["home", "house", "flat", "renovation", "interior"]),
   ("wedding", ["wedding", "marriage", "shaadi"]),
   ("education", ["education", "study", "college", "course"]),
   ("medical", ["medical", "hospital", "treatment", "surgery"]),
   ("travel", ["travel", "vacation", "trip", "holiday"]),
   ("business", ["business", "startup", "shop"]),
   ("debt_consolidation", ["debt", "loan", "emi", "consolidate"]),
   ("emergency", ["emergency", "urgent", "immediate"])]

def masterExtractPurpose (msg : List Char) : Option String :=
  findPurpose masterPurposeTable msg

def salesExtractPurpose (text : String) : Option String :=
  findPurpose salesPurposeTable (pyLower text)

/-! ## Intent detection -/

/-- `msg in [w1, ...]`: exact membership. -/
def memberOf (ws : List String) (msg : List Char) : Bool :=
  ws.any (fun w => w.data == msg)

/-- `any(p in msg for p in ps)`: substring membership. -/
def anyInfix (ps : List String) (msg : List Char) : Bool :=
  ps.any (fun p => containsSub p.data msg)

/-- `MasterAgentLLM._detect_intent(msg, original)`; `msg` is the lowered,
stripped message, `original` the raw message (fed to `_extract_amount`). -/
def masterDetectIntent (msg : List Char) (original : String) : String :=
  if pyTruthy (masterExtractAmount original) then "amount_provided"
  else if anyInfix ["made up my mind", "decided", "i\x27m ready", "im ready",
      "let\x27s do it", "go ahead", "proceed", "i want to", "i need to"] msg then "agreement"
  else if anyInfix ["need", "want", "require", "looking for"] msg ∧
      anyInfix ["loan", "money", "funds"] msg then "loan_need"
  else if memberOf ["yes", "ok", "okay", "sure", "yep", "yeah", "fine", "alright"] msg then
    "simple_yes"
  else if containsSub ['?'] msg ∨ anyInfix ["what", "how", "why", "when"] msg then "question"
  else if anyInfix ["not sure", "think about", "too expensive", "too high"] msg then "hesitation"
  else if memberOf ["hi", "hello", "hey"] msg ∨
      (["hi ", "hello ", "hey "].any (fun p => p.data.isPrefixOf msg)) then "greeting"
  else "general"

/-- `SalesAgent._analyze_sales_intent(message)`. -/
def salesAnalyzeIntent (message : String) : String :=
  let msg := pyLowerStrip message
  if pyTruthy (salesExtractAmount message) then "amount_provided"
  else if memberOf ["yes", "ok", "okay", "sure", "yep", "yeah", "fine", "alright",
      "proceed", "go ahead"] msg then "agreement"
  else if anyInfix ["let\x27s do", "lets do", "go ahead", "proceed", "i want", "i need"] msg then
    "agreement"
  else if containsSub ['?'] msg ∨
      anyInfix ["what", "how", "why", "when", "tell me", "explain"] msg then "question"
  else if anyInfix ["expensive", "too high", "too much", "can\x27t afford", "not sure",
      "think about", "maybe later"] msg then "hesitation"
  else "general"

/-! ## Display names (`_get_display_name`) -/

/-- Worker for `pyWords`: structural recursion over the input, carrying the
(reversed) current word. -/
def pyWordsGo : List Char → List Char → List (List Char)
  | [], cur => if cur.isEmpty then [] else [cur.reverse]
  | c :: t, cur =>
    if isPySpace c then
      if cur.isEmpty then pyWordsGo t [] else cur.reverse :: pyWordsGo t []
    else pyWordsGo t (c :: cur)

/-- `str.split()`: split on whitespace runs, dropping empty pieces. -/
def pyWords (l : List Char) : List (List Char) := pyWordsGo l []

/-- Greeting words excluded from names by the master agents
(`master_agent_llm.py` / `master_agent_v2.py`). -/
def masterGreetingWords : List String :=
  ["hi", "hello", "hey", "hii", "hiii", "namaste", "good morning", "good evening"]

/-- Greeting words excluded from names by `SalesAgent._get_display_name`. -/
def salesGreetingWords : List String :=
  ["hi", "hello", "hey", "hii", "hiii", "namaste"]

/-- Common shape of the three `_get_display_name` helpers.  `none` models
the `IndexError` Python raises when `raw_name` is nonempty but has no
words (whitespace-only). -/
def displayNameWith (greetings : List String) (raw : Option String) : Option String :=
  match raw with
  | none => some "there"
  | some r =>
    if r = "" then some "there"
    else
      match pyWords r.data with
      | [] => none
      | w :: _ =>
        if greetings.any (fun g => g.data == w.map Char.toLower) then some "there"
        else some (String.mk w)

/-- `MasterAgentLLM._get_display_name` (same list in `MasterAgentV2`). -/
def master_get_display_name (raw : Option String) : Option String :=
  displayNameWith masterGreetingWords raw

/-- `SalesAgent._get_display_name`. -/
def sales_get_display_name (raw : Option String) : Option String :=
  displayNameWith salesGreetingWords raw

/-! ## Replies, session state, and external-collaborator outcomes -/

/-- A bot reply.  Free text from the LLM collaborator is opaque
(`llmText`); `fallback tag` is the fixed string substituted when the LLM
call raises; `template tag` is a fixed non-LLM string built by the agent.
The interpolation of names and numbers into the fixed strings is abstracted
into the tag. -/
inductive Resp where
  | llmText (s : String)
  | fallback (tag : String)
  | template (tag : String)
deriving DecidableEq, Repr

/-- Python truthiness of a reply string (all fixed strings are nonempty). -/
def respTruthy : Resp → Bool
  | .llmText s => decide (s ≠ "")
  | .fallback _ => true
  | .template _ => true

def respOptTruthy (r : Option Resp) : Bool :=
  match r with
  | none => false
  | some v => respTruthy v

/-- `try: llm(...) except: fallback` at one call site. -/
def llmOr (llm : Option String) (tag : String) : Resp :=
  match llm with
  | some s => .llmText s
  | none => .fallback tag

/-- The fields of `LoanApplicationState` (`state.py`) that the embedded
agents read or write, plus the onboarding/document bookkeeping keys the
code stores in the same dict.  Numbers are rationals, `None` is `none`. -/
structure WFState where
  user_message : String
  bot_response : Option Resp
  customer_email : Option String
  customer_name : Option String
  customer_phone : Option String
  customer_age : Option ℤ
  customer_address : Option String
  loan_amount : Option ℚ
  loan_purpose : Option String
  tenure_months : Option ℕ
  interest_rate : Option ℚ
  emi_amount : Option ℚ
  emi_presented : Bool
  kyc_verified : Bool
  credit_score : Option ℚ
  credit_rating : Option String
  pre_approved_limit : Option ℚ
  monthly_salary : Option ℚ
  pan_number : Option String
  awaiting_pan : Bool
  current_stage : String
  application_status : String
  next_agent : String
  should_end : Bool
  rejection_reason : Option RejectReason
  needs_onboarding : Bool
  onboarding_step : Option String
  uploaded_documents : List String
  required_documents : List String
  pending_documents : List String
deriving DecidableEq, Repr

/-- Result of `crm_service.verify_customer_kyc` (`none` = customer not
found, i.e. `success: False`). -/
structure KycData where
  kyc_verified : Bool
  phone : String
  address : String
deriving DecidableEq, Repr

/-- Result of the credit-bureau fetch. -/
structure CreditResult where
  success : Bool
  credit_score : ℚ
  rating : String
deriving DecidableEq, Repr

/-- The external-collaborator outcomes a single turn can consume: the LLM
text call (`none` = the call raised), the KYC lookup, the credit lookup,
and the sanction-letter PDF generation (`none` = the call raised). -/
structure Externals where
  llm : Option String
  kyc : Option KycData
  credit : CreditResult
  pdf : Option String
deriving DecidableEq, Repr

/-! ## Onboarding helpers (`MasterAgentLLM._handle_onboarding`) -/

/-- `str.title()` at its ASCII behaviour: the first alphabetic character of
each alphabetic run is uppercased, the rest lowercased. -/
def pyTitleAux (prevAlpha : Bool) : List Char → List Char
  | [] => []
  | c :: t =>
    let c2 := if c.isAlpha then (if prevAlpha then c.toLower else c.toUpper) else c
    c2 :: pyTitleAux c.isAlpha t

def pyTitle (l : List Char) : List Char := pyTitleAux false l

/-- Match the phone pattern `[6-9]\d{9}` at the current position. -/
def matchPhoneAt (l : List Char) : Option (List Char) :=
  match l with
  | c :: t =>
    if ('6' ≤ c ∧ c ≤ '9') ∧ (t.take 9).length = 9 ∧ (t.take 9).all isPyDigit then
      some (c :: t.take 9)
    else none
  | [] => none

/-- Match the age pattern `\b(1[89]|[2-9]\d)\b` at the current position
(the two alternatives are both two characters long; Python tries `1[89]`
first). -/
def matchAgeAt (prev : Option Char) (l : List Char) : Option ℕ :=
  if boundaryBefore prev then
    match l with
    | c1 :: c2 :: r =>
      if c1 == '1' ∧ (c2 == '8' ∨ c2 == '9') ∧ wordBoundaryAfter r then
        some (digitsToNat [c1, c2])
      else if ('2' ≤ c1 ∧ c1 ≤ '9') ∧ isPyDigit c2 ∧ wordBoundaryAfter r then
        some (digitsToNat [c1, c2])
      else none
    | _ => none
  else none

/-- Greeting list used inside `_handle_onboarding`. -/
def onboardingGreetings : List String := ["hi", "hello", "hey", "hii", "hiii", "namaste"]

/-- `MasterAgentLLM._handle_onboarding(state, message)`.  All replies in
this flow are fixed templates (no LLM call). -/
def masterOnboarding (s : WFState) (message : String) : WFState :=
  let msgLower := pyLowerStrip message
  match s.onboarding_step with
  | some step =>
    if step = "name" then
      if memberOf onboardingGreetings msgLower then
        { s with onboarding_step := some "name",
                 bot_response := some (.template "onboarding_ask_name"),
                 next_agent := "master", current_stage := "onboarding" }
      else
        let name := pyTitle (pyStrip message.data)
        if 2 ≤ name.length ∧ name.length ≤ 50 ∧ ¬ name.any isPyDigit then
          { s with customer_name := some (String.mk name),
                   onboarding_step := some "phone",
                   bot_response := some (.template "onboarding_ask_phone"),
                   next_agent := "master", current_stage := "onboarding" }
        else
          { s with onboarding_step := some "name",
                   bot_response := some (.template "onboarding_name_retry"),
                   next_agent := "master", current_stage := "onboarding" }
    else if step = "phone" then
      match searchFirst matchPhoneAt
          (message.data.filter (fun c => !(c == ' ' || c == '-'))) with
      | some p =>
        { s with customer_phone := some ("+91-" ++ String.mk p),
                 onboarding_step := some "age",
                 bot_response := some (.template "onboarding_ask_age"),
                 next_agent := "master", current_stage := "onboarding" }
      | none =>
        { s with onboarding_step := some "phone",
                 bot_response := some (.template "onboarding_phone_retry"),
                 next_agent := "master", current_stage := "onboarding" }
    else if step = "age" then
      match searchWithPrev matchAgeAt none message.data with
      | some age =>
        { s with customer_age := some (age : ℤ),
                 needs_onboarding := false,
                 onboarding_step := none,
                 current_stage := "greeting",
                 bot_response := some (.template "onboarding_done"),
                 next_agent := "master" }
      | none =>
        { s with onboarding_step := some "age",
                 bot_response := some (.template "onboarding_age_retry"),
                 next_agent := "master", current_stage := "onboarding" }
    else
      { s with needs_onboarding := false, current_stage := "greeting",
               bot_response := some (.template "onboarding_fallthrough"),
               next_agent := "master" }
  | none =>
    { s with needs_onboarding := false, current_stage := "greeting",
             bot_response := some (.template "onboarding_fallthrough"),
             next_agent := "master" }

/-! ## Master agent (`master_agent_llm.py`) -/

/-- `MasterAgentLLM._decide_action_with_llm` (routing and state-update
part; every branch produces its reply through `_generate_llm_response`,
whose exception fallback is the fixed string modelled by
`fallback "master_fallback"`). -/
def masterDecide (s : WFState) (msgStr : String) (llm : Option String) : WFState :=
  let msg := pyLowerStrip msgStr
  let amountRaw := masterExtractAmount msgStr
  let amount : Option ℚ := if pyTruthy amountRaw then amountRaw else none
  let purpose := masterExtractPurpose msg
  let intent := masterDetectIntent msg msgStr
  let stage := s.current_stage
  let resp : Option Resp := some (llmOr llm "master_fallback")
  if amount.isSome then
    { s with loan_amount := amount,
             loan_purpose := if purpose.isSome then purpose else s.loan_purpose,
             bot_response := resp,
             current_stage := "offer_presentation",
             next_agent := "sales" }
  else if stage = "greeting" then
    if intent = "loan_need" ∨ intent = "agreement" ∨ intent = "simple_yes" then
      { s with bot_response := resp, current_stage := "discovery", next_agent := "master" }
    else if purpose.isSome then
      { s with bot_response := resp, current_stage := "persuasion", next_agent := "master" }
    else
      { s with bot_response := resp, current_stage := "greeting", next_agent := "master" }
  else if stage = "discovery" then
    if intent = "loan_need" ∨ intent = "agreement" ∨ intent = "simple_yes" then
      { s with bot_response := resp, current_stage := "discovery", next_agent := "master" }
    else if purpose.isSome then
      { s with bot_response := resp, current_stage := "persuasion", next_agent := "master" }
    else
      { s with bot_response := resp, current_stage := "discovery", next_agent := "master" }
  else if stage = "persuasion" then
    if intent = "agreement" ∨ intent = "simple_yes" ∨ intent = "loan_need" then
      { s with bot_response := resp, current_stage := "offer_presentation", next_agent := "sales" }
    else if intent = "hesitation" then
      { s with bot_response := resp, current_stage := "persuasion", next_agent := "master" }
    else
      { s with bot_response := resp, current_stage := "offer_presentation", next_agent := "sales" }
  else
    { s with bot_response := resp, current_stage := "discovery", next_agent := "master" }

/-- `MasterAgentLLM.run`. -/
def masterRun (s : WFState) (llm : Option String) : WFState :=
  let msgStr := String.mk (pyStrip s.user_message.data)
  if s.needs_onboarding then masterOnboarding s msgStr
  else masterDecide s msgStr llm

/-! ## Sales agent (`sales_agent.py`) -/

/-- Python `x or y` on optional naturals (`0` is falsy). -/
def pyOrOptNat (x y : Option ℕ) : Option ℕ :=
  match x with
  | some v => if v = 0 then y else some v
  | none => y

/-- `SalesAgent.run`.  The single `llm` parameter stands for the outcome of
whichever of the agent's LLM call sites (`_generate_offer_response`,
`_handle_hesitation`, `_answer_question`, `_get_discovery_response`) the
executed branch reaches; at most one of them runs per turn. -/
def salesRun (s : WFState) (llm : Option String) : WFState :=
  let user_message := s.user_message
  let pre_approved := pyOrQ s.pre_approved_limit 500000
  let monthly_salary := pyOrQ s.monthly_salary 50000
  let loan_amount := pyOrOptQ s.loan_amount (salesExtractAmount user_message)
  let tenure := pyOrOptNat (salesExtractTenure user_message) s.tenure_months
  let purpose := pyOrOptStr (salesExtractPurpose user_message) s.loan_purpose
  let intent := salesAnalyzeIntent user_message
  if intent = "hesitation" then
    { s with bot_response := some (llmOr llm "sales_hesitation_fallback"),
             current_stage := "sales", next_agent := "sales" }
  else if intent = "question" then
    { s with bot_response := some (llmOr llm "sales_question_fallback"),
             current_stage := "sales", next_agent := "sales" }
  else if intent = "agreement" ∧ pyTruthy loan_amount ∧ s.emi_presented then
    if s.application_status = "needs_documents" then
      { s with next_agent := "document", current_stage := "document_collection",
               bot_response := some (.template "sales_to_documents") }
    else
      { s with next_agent := "verification", current_stage := "verification",
               bot_response := some (.template "sales_to_verification") }
  else if pyTruthy loan_amount then
    let la := loan_amount.getD 0
    let interest_rate := calculate_interest_rate la s.credit_score s.pre_approved_limit
    let tenureVal : ℕ :=
      match tenure with
      | some t => if t = 0 then (suggest_tenure la monthly_salary).toNat else t
      | none => (suggest_tenure la monthly_salary).toNat
    let emi := calculate_emi la interest_rate tenureVal
    { s with loan_amount := some la,
             interest_rate := some interest_rate,
             tenure_months := some tenureVal,
             emi_amount := some emi,
             loan_purpose := if pyTruthyStr purpose then purpose else s.loan_purpose,
             bot_response := some (llmOr llm "sales_offer_fallback"),
             current_stage := "sales",
             emi_presented := true,
             next_agent := "sales",
             application_status :=
               if la ≤ pre_approved then "pre_approved"
               else if la ≤ pre_approved * 2 then "needs_documents"
               else "needs_negotiation" }
  else
    { s with bot_response := some (llmOr llm "sales_discovery_fallback"),
             current_stage := "sales", next_agent := "sales" }

/-! ## Document agent (`document_agent.py`) -/

/-- `DocumentAgent._get_required_documents(loan_amount, pre_approved)`. -/
def get_required_documents (loan_amount pre_approved : ℚ) : List String :=
  ["aadhaar", "pan"]
    ++ (if loan_amount > pre_approved then ["salary_slip"] else [])
    ++ (if loan_amount > pre_approved * 1.5 then ["bank_statement"] else [])

/-- `DocumentAgent.run`.  `_analyze_document_intent` only changes the
scenario text handed to the LLM, so it is absorbed into the opaque
`llmText`; the exception fallback depends on whether documents are still
pending. -/
def documentRun (s : WFState) (llm : Option String) : WFState :=
  let loan_amount := s.loan_amount.getD 0
  let pre_approved := s.pre_approved_limit.getD 0
  let required := get_required_documents loan_amount pre_approved
  let pending := required.filter (fun d => !(s.uploaded_documents.contains d))
  let resp : Resp :=
    match llm with
    | some t => .llmText t
    | none =>
      if pending.isEmpty then .fallback "document_all_received"
      else .fallback "document_request_pending"
  { s with bot_response := some resp,
           current_stage := if pending.isEmpty then "underwriting" else "document_collection",
           next_agent := if pending.isEmpty then "underwriting" else "document",
           required_documents := required,
           pending_documents := pending }

/-! ## Underwriting agent (`underwriting_agent.py`) -/

/-- ASCII `[A-Z]`. -/
def isUpperAZ (c : Char) : Bool := 'A' ≤ c ∧ c ≤ 'Z'

/-- Match the PAN pattern `[A-Z]{5}[0-9]{4}[A-Z]` at the current
position. -/
def matchPanAt (l : List Char) : Option String :=
  match l with
  | a :: b :: c :: d :: e :: f :: g :: h :: i :: j :: _ =>
    if [a, b, c, d, e].all isUpperAZ ∧ [f, g, h, i].all isPyDigit ∧ isUpperAZ j then
      some (String.mk [a, b, c, d, e, f, g, h, i, j])
    else none
  | _ => none

/-- The part of `UnderwritingAgent.run` after PAN extraction: ask for a
PAN when neither a PAN nor a credit score is known; otherwise consume the
credit-bureau result, store score and decision and route on the decision
status. -/
def underwritingCore (s : WFState) (pan : Option String) (credit : CreditResult)
    (llm : Option String) : WFState :=
  if pan = none ∧ ¬ pyTruthy s.credit_score then
    { s with bot_response := some (.template "underwriting_ask_pan"),
             current_stage := "underwriting", next_agent := "underwriting",
             awaiting_pan := true }
  else if credit.success then
    let decision := make_decision credit.credit_score (s.loan_amount.getD 0)
      (s.pre_approved_limit.getD 0) (s.monthly_salary.getD 0) (s.emi_amount.getD 0)
    let base :=
      { s with credit_score := some credit.credit_score,
               credit_rating := some credit.rating,
               pan_number := if pan.isSome then pan else s.pan_number,
               awaiting_pan := false,
               application_status := decision.status,
               current_stage := "underwriting" }
    if decision.status = "approved" then
      { base with next_agent := "sanction",
                  bot_response := some (llmOr llm "underwriting_approved_fallback") }
    else if decision.status = "needs_documents" then
      { base with next_agent := "document",
                  bot_response := some (llmOr llm "underwriting_review_fallback") }
    else
      { base with next_agent := "sales",
                  rejection_reason := decision.reason,
                  bot_response := some (llmOr llm "underwriting_review_fallback") }
  else
    { s with next_agent := "underwriting", current_stage := "underwriting",
             bot_response := some (llmOr llm "underwriting_bureau_error_fallback") }

/-- `UnderwritingAgent.run`. -/
def underwritingRun (s : WFState) (credit : CreditResult) (llm : Option String) : WFState :=
  if s.awaiting_pan ∧ s.pan_number = none ∧ s.user_message ≠ "" then
    match searchFirst matchPanAt (s.user_message.data.map Char.toUpper) with
    | some pan => underwritingCore s (some pan) credit llm
    | none =>
      { s with bot_response := some (.template "underwriting_pan_invalid"),
               current_stage := "underwriting", next_agent := "underwriting",
               awaiting_pan := true }
  else underwritingCore s s.pan_number credit llm

/-! ## Verification agent (`verification_agent.py`) -/

/-- `VerificationAgent.run`; `kyc = none` models the CRM lookup returning
`success: False` (customer not found). -/
def verificationRun (s : WFState) (kyc : Option KycData) (llm : Option String) : WFState :=
  match kyc with
  | some k =>
    let base :=
      { s with kyc_verified := k.kyc_verified,
               customer_phone := some k.phone,
               customer_address := some k.address,
               bot_response := some (llmOr llm "verification_fallback"),
               current_stage := "verification" }
    if k.kyc_verified then
      { base with next_agent := "underwriting" }
    else
      { base with next_agent := "document", application_status := "needs_documents" }
  | none =>
    { s with next_agent := "document", kyc_verified := false,
             application_status := "needs_documents",
             bot_response := some (llmOr llm "verification_fallback"),
             current_stage := "verification" }

/-! ## Sanction agent (`sanction_agent.py`) -/

/-- `SanctionAgent.run`; `pdf = none` models
`pdf_generator.generate_sanction_letter` raising.  The
`sanction_letter_url` field (a URL string derived from the PDF path and
configuration) is not modelled; no claim reads it. -/
def sanctionRun (s : WFState) (pdf : Option String) (llm : Option String) : WFState :=
  match pdf with
  | some _ =>
    { s with application_status := "approved",
             should_end := false,
             current_stage := "sanction",
             bot_response := some (llmOr llm "sanction_approved_fallback"),
             next_agent := "completed" }
  | none =>
    { s with bot_response := some (llmOr llm "sanction_pdf_error_fallback"),
             current_stage := "sanction",
             next_agent := "sanction",
             application_status := "approved" }

/-! ## Workflow (`workflow.py`) -/

def workerAgents : List String :=
  ["sales", "verification", "document", "underwriting", "sanction"]

/-- `LoanWorkflow._call_agent`. -/
def callAgent (ext : Externals) (name : String) (s : WFState) : WFState :=
  if name = "master" then masterRun s ext.llm
  else if name = "sales" then salesRun s ext.llm
  else if name = "verification" then verificationRun s ext.kyc ext.llm
  else if name = "document" then documentRun s ext.llm
  else if name = "underwriting" then underwritingRun s ext.credit ext.llm
  else if name = "sanction" then sanctionRun s ext.pdf ext.llm
  else s

/-- `LoanWorkflow.process_message(state, user_message)`: the dispatch chain
on `next_agent` / `current_stage`, with each agent's dict update already
merged into the state (`state.update(updates)`). -/
def process_message (ext : Externals) (s0 : WFState) (msg : String) : WFState :=
  let s := { s0 with user_message := msg }
  if s.next_agent = "master" ∨
      ((s.current_stage = "greeting" ∨ s.current_stage = "discovery" ∨
        s.current_stage = "persuasion" ∨ s.current_stage = "onboarding") ∧
       ¬ workerAgents.contains s.next_agent) then
    let s1 := masterRun s ext.llm
    if s1.next_agent ≠ "master" ∧ ¬ respOptTruthy s1.bot_response then
      let s2 := callAgent ext s1.next_agent s1
      if respOptTruthy s2.bot_response then s2 else s1
    else s1
  else if s.next_agent = "sales" then salesRun s ext.llm
  else if s.next_agent = "verification" then
    let s1 := verificationRun s ext.kyc ext.llm
    if s1.kyc_verified then
      if s1.application_status = "needs_documents" then { s1 with next_agent := "document" }
      else { s1 with next_agent := "underwriting" }
    else s1
  else if s.next_agent = "document" then documentRun s ext.llm
  else if s.next_agent = "underwriting" then
    let s1 := underwritingRun s ext.credit ext.llm
    if s1.application_status = "approved" then sanctionRun s1 ext.pdf ext.llm
    else if s1.application_status = "needs_documents" then { s1 with next_agent := "document" }
    else s1
  else if s.next_agent = "sanction" then
    let s1 := sanctionRun s ext.pdf ext.llm
    { s1 with next_agent := "completed" }
  else if s.next_agent = "completed" then
    { s with should_end := true, bot_response := some (.template "workflow_goodbye") }
  else s

/-! ## Specification-side definitions (written from the spec text, for
refinement comparisons) and shared concrete inputs -/

/-- The interest-rate formula exactly as claim C5 states it: base 10.5,
tier discount by score, plus 1.0 whenever `requestedAmount >
preApprovedLimit`, rounded to 2 decimals. -/
def interestRateSpec (a s p : ℚ) : ℚ :=
  round2 (10.5
    - (if s ≥ 800 then 1.5 else if s ≥ 750 then 1.0 else if s ≥ 700 then 0.5 else 0)
    + (if a > p then 1.0 else 0))

/-- The amended interest-rate formula, written from the amended claim
text: a missing or zero (falsy) credit score is defaulted to 700, the
tier discount is taken on the defaulted score, and the 1.0 surcharge
applies only when the pre-approved limit is nonzero and the requested
amount exceeds it; the result is rounded to two decimals. -/
def interestRateAmendedSpec (a : ℚ) (s : Option ℚ) (p : ℚ) : ℚ :=
  let eff : ℚ :=
    match s with
    | none => 700
    | some v => if v = 0 then 700 else v
  round2 (10.5
    - (if eff ≥ 800 then 1.5 else if eff ≥ 750 then 1.0 else if eff ≥ 700 then 0.5 else 0)
    + (if p ≠ 0 ∧ a > p then 1.0 else 0))

/-- The display-name rule as claim C10 states it: `"there"` for an empty
name or a first word that lowercases to a greeting word, otherwise the
first word. -/
def displaySpec (greetings : List String) (raw : String) : String :=
  if raw = "" then "there"
  else
    match pyWords raw.data with
    | [] => "there"
    | w :: _ =>
      if greetings.any (fun g => g.data == w.map Char.toLower) then "there"
      else String.mk w

/-- The five legal `application_status` values declared by the `Literal`
type in `state.py`. -/
def allowedStatuses : List String :=
  ["pending", "approved", "rejected", "needs_documents", "under_review"]

/-- Two states that agree on everything except the bot reply. -/
def sameButResponse (x y : WFState) : Prop :=
  { x with bot_response := none } = { y with bot_response := none }

instance (x y : WFState) : Decidable (sameButResponse x y) := by
  unfold sameButResponse; infer_instance

/-- A reply that is a fixed deterministic string (template or fallback),
not LLM output. -/
def isFixedResp : Option Resp → Bool
  | some (.fallback _) => true
  | some (.template _) => true
  | _ => false

/-- A freshly initialized session for a known customer, as built by the
websocket handler in `main.py` (profile found, no onboarding needed). -/
def baseState : WFState where
  user_message := ""
  bot_response := none
  customer_email := some "user@example.com"
  customer_name := some "Asha Rao"
  customer_phone := none
  customer_age := none
  customer_address := none
  loan_amount := none
  loan_purpose := none
  tenure_months := none
  interest_rate := none
  emi_amount := none
  emi_presented := false
  kyc_verified := false
  credit_score := none
  credit_rating := none
  pre_approved_limit := some 500000
  monthly_salary := some 50000
  pan_number := none
  awaiting_pan := false
  current_stage := "greeting"
  application_status := "pending"
  next_agent := "master"
  should_end := false
  rejection_reason := none
  needs_onboarding := false
  onboarding_step := none
  uploaded_documents := []
  required_documents := []
  pending_documents := []

/-- A fixed assignment of external-collaborator outcomes where every call
succeeds. -/
def extOk : Externals where
  llm := some "llm reply"
  kyc := some { kyc_verified := true, phone := "+91-9876543210", address := "MG Road" }
  credit := { success := true, credit_score := 760, rating := "Very Good" }
  pdf := some "uploads/sanction.pdf"

/-- A declarative witness that the master lakh pattern
`(\d+(?:\.\d+)?)\s*(?:lakh|lakhs|lac|l)\b` matches `t` at the position
right after `pre`: a nonempty digit run `ds`, an optional fraction `fs`
(empty = no `.`-part), whitespace `ws`, a unit word `u`, and a remainder
`post` starting at a word boundary. -/
def IsLakhDecomp (t pre ds fs ws u post : List Char) : Prop :=
  t = pre ++ (ds ++ ((if fs.isEmpty then [] else '.' :: fs) ++ (ws ++ (u ++ post)))) ∧
  ds ≠ [] ∧ ds.all isPyDigit = true ∧ fs.all isPyDigit = true ∧
  ws.all isPySpace = true ∧ u ∈ masterLakhUnits ∧ wordBoundaryAfter post = true

/-- `t` contains a lakh-suffixed number. -/
def ContainsLakh (t : List Char) : Prop :=
  ∃ pre ds fs ws u post, IsLakhDecomp t pre ds fs ws u post

/-- `v` is the numeric value of some lakh-suffixed occurrence in `t`. -/
def LakhDerived (t : List Char) (v : ℚ) : Prop :=
  ∃ pre ds fs ws u post, IsLakhDecomp t pre ds fs ws u post ∧ v = decimalVal ds fs

/-- `t` contains a bare 5-digit number (`\b\d{5}\b` occurrence). -/
def ContainsBare5 (t : List Char) : Prop :=
  ∃ pre ds post, t = pre ++ (ds ++ post) ∧ ds.length = 5 ∧ ds.all isPyDigit = true ∧
    boundaryBefore pre.getLast? = true ∧ wordBoundaryAfter post = true

/-- The present-value annuity factor `∑_{k=1}^{n} (1+r)^{-k}`: the EMI is
characterized by `emiExact P r n = P / annuityS r n`. -/
def annuityS (r : ℚ) (n : ℕ) : ℚ :=
  ∑ k in Finset.range n, (1 / (1 + r)) ^ (k + 1)

/-! ## Rounding lemmas -/

theorem roundHalfEven_le (q : ℚ) : roundHalfEven q ≤ ⌊q⌋ + 1 := by
  unfold roundHalfEven
  split_ifs <;> omega

theorem le_roundHalfEven (q : ℚ) : ⌊q⌋ ≤ roundHalfEven q := by
  unfold roundHalfEven
  split_ifs <;> omega

theorem roundHalfEven_mono {a b : ℚ} (h : a ≤ b) :
    roundHalfEven a ≤ roundHalfEven b := by
  have hf : ⌊a⌋ ≤ ⌊b⌋ := Int.floor_le_floor h
  rcases lt_or_eq_of_le hf with hlt | heq
  · calc roundHalfEven a ≤ ⌊a⌋ + 1 := roundHalfEven_le a
      _ ≤ ⌊b⌋ := by omega
      _ ≤ roundHalfEven b := le_roundHalfEven b
  · unfold roundHalfEven
    rw [← heq]
    have hfr : a - (⌊a⌋ : ℚ) ≤ b - (⌊a⌋ : ℚ) := by linarith
    split_ifs <;> first | omega | linarith

theorem round2_mono {a b : ℚ} (h : a ≤ b) : round2 a ≤ round2 b := by
  unfold round2
  have : roundHalfEven (a * 100) ≤ roundHalfEven (b * 100) :=
    roundHalfEven_mono (by linarith)
  have hc : ((roundHalfEven (a * 100) : ℤ) : ℚ) ≤ ((roundHalfEven (b * 100) : ℤ) : ℚ) := by
    exact_mod_cast this
  linarith

/-! ## Claim theorems -/

/-- C1: for every credit score, requested amount, pre-approved limit,
monthly salary and EMI, `UnderwritingAgent._make_decision` evaluates its
rules in order, first match wins, and returns exactly the status / reason /
alternative amount the claim describes (`decideSpec`, written from the
claim text). -/
theorem C1_underwriting_decision_rules (s a p m e : ℚ) :
    make_decision s a p m e = decideSpec s a p m e := by
  have hm : (m ≠ 0 ∧ m > 0) = (m > 0) := by
    apply propext
    constructor
    · rintro ⟨-, h⟩; exact h
    · intro h; exact ⟨ne_of_gt h, h⟩
  have h2 : (a ≤ p * 2) = (a ≤ 2 * p) := by rw [mul_comm]
  have he : (e ≤ m * 0.5) = (e ≤ 0.5 * m) := by rw [mul_comm]
  unfold make_decision decideSpec
  simp only [hm, h2, he]

/-- C5, counterexample: two divergences from the claim formula.  (i) The
claim adds the surcharge from `requestedAmount > preApprovedLimit` alone,
but the code guards it behind the truthiness of the pre-approved limit:
with limit 0, score 750 and amount 100000 the claim formula gives 10.5
while the code returns 9.5.  (ii) The claim subtracts nothing for scores
below 700, but the code defaults a falsy (zero) score to 700
(`credit_score or 700`): at score 0 the code returns 10.0 while the claim
formula gives 10.5 — and the claimed score-monotonicity fails with it,
since raising the score from 0 to 600 raises the code rate from 10.0 to
10.5. -/
theorem C5_interest_rate_counterexample :
    calculate_interest_rate 100000 (some 750) (some 0) = 9.5 ∧
    interestRateSpec 100000 750 0 = 10.5 ∧
    calculate_interest_rate 100000 (some 750) (some 0) ≠ interestRateSpec 100000 750 0 ∧
    calculate_interest_rate 100000 (some 0) (some 500000) = 10.0 ∧
    interestRateSpec 100000 0 500000 = 10.5 ∧
    calculate_interest_rate 100000 (some 0) (some 500000) ≠ interestRateSpec 100000 0 500000 ∧
    calculate_interest_rate 100000 (some 0) (some 500000) <
      calculate_interest_rate 100000 (some 600) (some 500000) := by
  refine ⟨by decide, by decide, by decide, by decide, by decide, by decide, by decide⟩

/-- C5, amended: for every score (zero included) the rate equals the
amended formula `interestRateAmendedSpec` — base 10.5 minus the tier
discount of the effective score (the stored score, with a missing or zero
score defaulted to 700) plus 1.0 exactly when the pre-approved limit is
nonzero and the requested amount exceeds it, rounded to two decimals;
among known positive credit scores a higher score never increases the
rate, and a larger requested amount never decreases it.  (Across zero the
default breaks score-monotonicity — see the counterexample.) -/
theorem C5_interest_rate_amended (a a' s s' p : ℚ) (hss : s ≤ s') (haa : a ≤ a') :
    calculate_interest_rate a (some s) (some p) = interestRateAmendedSpec a (some s) p ∧
    calculate_interest_rate a none (some p) = interestRateAmendedSpec a none p ∧
    (0 < s → calculate_interest_rate a (some s') (some p)
      ≤ calculate_interest_rate a (some s) (some p)) ∧
    calculate_interest_rate a (some s) (some p) ≤ calculate_interest_rate a' (some s) (some p) := by
  have hpp : pyOrQ (some p) 0 = p := by
    by_cases h : p = 0
    · simp [pyOrQ, h]
    · simp [pyOrQ, h]
  have hq : pyOrQ (some s) 700 = if s = 0 then 700 else s := rfl
  have hn : pyOrQ none 700 = (700 : ℚ) := rfl
  refine ⟨?_, ?_, ?_, ?_⟩
  · unfold calculate_interest_rate interestRateAmendedSpec
    dsimp only
    rw [hq, hpp]
    simp only [ne_eq, gt_iff_lt]
    apply congrArg
    split_ifs <;> norm_num
  · unfold calculate_interest_rate interestRateAmendedSpec
    dsimp only
    rw [hn, hpp]
    simp only [ne_eq, gt_iff_lt]
    apply congrArg
    split_ifs <;> norm_num
  · intro hs
    have hps : pyOrQ (some s) 700 = s := by
      simp [pyOrQ, ne_of_gt hs]
    have hps' : pyOrQ (some s') 700 = s' := by
      have : 0 < s' := lt_of_lt_of_le hs hss
      simp [pyOrQ, ne_of_gt this]
    unfold calculate_interest_rate
    rw [hps, hps', hpp]
    apply round2_mono
    have htier :
        (if s' ≥ 800 then (10.5 : ℚ) - 1.5
         else if s' ≥ 750 then 10.5 - 1.0
         else if s' ≥ 700 then 10.5 - 0.5 else 10.5)
          ≤ (if s ≥ 800 then (10.5 : ℚ) - 1.5
             else if s ≥ 750 then 10.5 - 1.0
             else if s ≥ 700 then 10.5 - 0.5 else 10.5) := by
      split_ifs <;> linarith
    split_ifs with h1 <;> linarith [htier]
  · unfold calculate_interest_rate
    rw [hpp]
    apply round2_mono
    by_cases hp : p = 0
    · simp [hp]
    · by_cases hpa : p < a
      · have hpa' : p < a' := lt_of_lt_of_le hpa haa
        have h1 : p ≠ 0 ∧ a > p := ⟨hp, hpa⟩
        have h2 : p ≠ 0 ∧ a' > p := ⟨hp, hpa'⟩
        rw [if_pos h1, if_pos h2]
      · have h1 : ¬(p ≠ 0 ∧ a > p) := fun hc => hpa hc.2
        rw [if_neg h1]
        by_cases hpa' : p < a'
        · have h2 : p ≠ 0 ∧ a' > p := ⟨hp, hpa'⟩
          rw [if_pos h2]
          split_ifs <;> linarith
        · have h2 : ¬(p ≠ 0 ∧ a' > p) := fun hc => hpa' hc.2
          rw [if_neg h2]

/-- C5, witness for the amended theorem at scores 750 ≤ 800, amounts
400000 ≤ 600000, pre-approved 500000. -/
theorem C5_interest_rate_amended_witness :
    calculate_interest_rate 400000 (some 750) (some 500000) =
      interestRateAmendedSpec 400000 (some 750) 500000 ∧
    calculate_interest_rate 400000 none (some 500000) =
      interestRateAmendedSpec 400000 none 500000 ∧
    ((0 : ℚ) < 750 → calculate_interest_rate 400000 (some 800) (some 500000) ≤
      calculate_interest_rate 400000 (some 750) (some 500000)) ∧
    calculate_interest_rate 400000 (some 750) (some 500000) ≤
      calculate_interest_rate 600000 (some 750) (some 500000) :=
  C5_interest_rate_amended 400000 600000 750 800 500000 (by norm_num) (by norm_num)

/-- C7: the `Literal` type in `state.py` declares exactly five legal
`application_status` values, but `SalesAgent.run` assigns the strings
`"pre_approved"` and `"needs_negotiation"`, which are outside that set:
with pre-approved limit 500000, requesting 3 lakhs yields
`"pre_approved"` and requesting 15 lakhs yields `"needs_negotiation"`. -/
theorem C7_sales_assigns_status_outside_enum :
    (salesRun { baseState with
        user_message := "3 lakhs", current_stage := "sales", next_agent := "sales" }
      (some "offer")).application_status = "pre_approved" ∧
    "pre_approved" ∉ allowedStatuses ∧
    (salesRun { baseState with
        user_message := "15 lakhs", current_stage := "sales", next_agent := "sales" }
      (some "offer")).application_status = "needs_negotiation" ∧
    "needs_negotiation" ∉ allowedStatuses := by
  refine ⟨by decide, by decide, by decide, by decide⟩

/-- C8: in the document-collection stage the required-document set is
exactly `{aadhaar, pan}` plus `salary_slip` when the amount exceeds the
pre-approved limit plus `bank_statement` when it exceeds 1.5× the limit;
the pending set is the required set minus the uploaded set; and the stage
moves to underwriting exactly when nothing is pending, otherwise it stays
in document collection re-requesting the pending documents. -/
theorem C8_document_collection (s : WFState) (llm : Option String) :
    (∀ d, d ∈ (documentRun s llm).required_documents ↔
      (d = "aadhaar" ∨ d = "pan" ∨
       (d = "salary_slip" ∧ s.loan_amount.getD 0 > s.pre_approved_limit.getD 0) ∨
       (d = "bank_statement" ∧ s.loan_amount.getD 0 > 1.5 * s.pre_approved_limit.getD 0))) ∧
    (documentRun s llm).pending_documents =
      (documentRun s llm).required_documents.filter
        (fun d => !(s.uploaded_documents.contains d)) ∧
    ((documentRun s llm).current_stage = "underwriting" ↔
      (documentRun s llm).pending_documents = []) ∧
    ((documentRun s llm).next_agent = "underwriting" ↔
      (documentRun s llm).pending_documents = []) ∧
    ((documentRun s llm).pending_documents ≠ [] →
      (documentRun s llm).current_stage = "document_collection" ∧
      (documentRun s llm).next_agent = "document") := by
  have hm : s.loan_amount.getD 0 > 1.5 * s.pre_approved_limit.getD 0 ↔
      s.loan_amount.getD 0 > s.pre_approved_limit.getD 0 * 1.5 := by
    rw [mul_comm]
  have hreq : (documentRun s llm).required_documents =
      get_required_documents (s.loan_amount.getD 0) (s.pre_approved_limit.getD 0) := rfl
  have hpend : (documentRun s llm).pending_documents =
      (get_required_documents (s.loan_amount.getD 0)
        (s.pre_approved_limit.getD 0)).filter
          (fun d => !(s.uploaded_documents.contains d)) := rfl
  have hstage : (documentRun s llm).current_stage =
      (if ((get_required_documents (s.loan_amount.getD 0)
            (s.pre_approved_limit.getD 0)).filter
              (fun d => !(s.uploaded_documents.contains d))).isEmpty
       then "underwriting" else "document_collection") := rfl
  have hagent : (documentRun s llm).next_agent =
      (if ((get_required_documents (s.loan_amount.getD 0)
            (s.pre_approved_limit.getD 0)).filter
              (fun d => !(s.uploaded_documents.contains d))).isEmpty
       then "underwriting" else "document") := rfl
  refine ⟨?_, ?_, ?_, ?_, ?_⟩
  · intro d
    rw [hreq]
    unfold get_required_documents
    by_cases h1 : s.loan_amount.getD 0 > s.pre_approved_limit.getD 0 <;>
      by_cases h2 : s.loan_amount.getD 0 > s.pre_approved_limit.getD 0 * 1.5 <;>
        simp [h1, h2, hm]
  · rw [hpend, hreq]
  · rw [hstage, hpend]
    cases hl : (get_required_documents (s.loan_amount.getD 0)
        (s.pre_approved_limit.getD 0)).filter (fun d => !(s.uploaded_documents.contains d)) with
    | nil => simp
    | cons w ws => simp
  · rw [hagent, hpend]
    cases hl : (get_required_documents (s.loan_amount.getD 0)
        (s.pre_approved_limit.getD 0)).filter (fun d => !(s.uploaded_documents.contains d)) with
    | nil => simp
    | cons w ws => simp
  · rw [hpend, hstage, hagent]
    cases hl : (get_required_documents (s.loan_amount.getD 0)
        (s.pre_approved_limit.getD 0)).filter (fun d => !(s.uploaded_documents.contains d)) with
    | nil => simp
    | cons w ws => simp

/-- C10: each `_get_display_name` helper returns `"there"` for an empty or
missing name and for a first word that lowercases to a greeting word, and
otherwise returns the first whitespace-separated word of the stored name
(`displaySpec`, written from the claim text).  The hypothesis excludes the
nonempty whitespace-only name, on which the Python code raises
`IndexError`. -/
theorem C10_display_name (raw : String)
    (h : raw = "" ∨ pyWords raw.data ≠ []) :
    sales_get_display_name (some raw) = some (displaySpec salesGreetingWords raw) ∧
    master_get_display_name (some raw) = some (displaySpec masterGreetingWords raw) := by
  have key : ∀ gs, displayNameWith gs (some raw) = some (displaySpec gs raw) := by
    intro gs
    unfold displayNameWith displaySpec
    by_cases he : raw = ""
    · simp [he]
    · rcases h with h | h
      · exact absurd h he
      · cases hw : pyWords raw.data with
        | nil => exact absurd hw h
        | cons w ws =>
          by_cases hg : gs.any (fun g => g.data == w.map Char.toLower)
          · simp [he, hw, hg]
          · simp [he, hw, hg]
  exact ⟨key _, key _⟩

/-- C10, witness at the stored name `"Asha Rao"`. -/
theorem C10_display_name_witness :
    sales_get_display_name (some "Asha Rao") =
      some (displaySpec salesGreetingWords "Asha Rao") ∧
    master_get_display_name (some "Asha Rao") =
      some (displaySpec masterGreetingWords "Asha Rao") :=
  C10_display_name "Asha Rao" (Or.inr (by decide))

/-- C2, amended: on every turn the master agent handles (onboarding
finished; its stage dispatch covers greeting, discovery, persuasion and a
default for any other stage), an utterance whose amount extraction
succeeds with a nonzero value makes `_decide_action_with_llm` capture the
amount and unconditionally route to `offer_presentation` / `sales`,
overriding every per-stage rule.  (Turns owned by the worker agents are
dispatched to those agents instead — see the counterexample.) -/
theorem C2_amended_master_fast_path (s : WFState) (llm : Option String) (a : ℚ)
    (h1 : s.needs_onboarding = false)
    (h2 : masterExtractAmount (String.mk (pyStrip s.user_message.data)) = some a)
    (h3 : a ≠ 0) :
    (masterRun s llm).current_stage = "offer_presentation" ∧
    (masterRun s llm).next_agent = "sales" ∧
    (masterRun s llm).loan_amount = some a := by
  unfold masterRun masterDecide
  simp [h1, h2, pyTruthy, h3]

/-- C2, witness for the amended theorem: "5 lakhs" spoken while in the
`persuasion` stage routes to `offer_presentation` / `sales` with amount
500000 captured. -/
theorem C2_amended_master_fast_path_witness :
    (masterRun { baseState with
        user_message := "5 lakhs", current_stage := "persuasion" }
      (some "ok")).current_stage = "offer_presentation" ∧
    (masterRun { baseState with
        user_message := "5 lakhs", current_stage := "persuasion" }
      (some "ok")).next_agent = "sales" ∧
    (masterRun { baseState with
        user_message := "5 lakhs", current_stage := "persuasion" }
      (some "ok")).loan_amount = some 500000 :=
  C2_amended_master_fast_path _ (some "ok") 500000 (by decide) (by decide) (by decide)

/-- C2, counterexample to the claim as stated: `document_collection` is a
non-terminal stage, and "5 lakhs" contains an unambiguous amount, yet when
the turn is owned by the document agent (`next_agent = "document"`) the
workflow dispatches to the document agent, which keeps the session in
`document_collection` / `document` — not `offer_presentation` / `sales`. -/
theorem C2_counterexample_document_stage :
    masterExtractAmount "5 lakhs" = some 500000 ∧
    (process_message extOk { baseState with
        current_stage := "document_collection", next_agent := "document",
        loan_amount := some 700000, emi_presented := true,
        application_status := "needs_documents" } "5 lakhs").current_stage
      = "document_collection" ∧
    (process_message extOk { baseState with
        current_stage := "document_collection", next_agent := "document",
        loan_amount := some 700000, emi_presented := true,
        application_status := "needs_documents" } "5 lakhs").next_agent
      = "document" ∧
    ("document_collection" : String) ≠ "offer_presentation" := by
  refine ⟨by decide, by decide, by decide, by decide⟩

set_option maxHeartbeats 2000000 in
/-- C9, amended: when an LLM text-generation call raises, the sales,
underwriting and document agents substitute a fixed deterministic reply at
the call site and leave every other state field — in particular the
stage/handler routing — exactly as on LLM success.  (This does **not**
extend to the PDF document-generation call in the sanction stage — see the
counterexample — and the KYC/credit lookups report failure through result
flags rather than raising; an exception from them would propagate
uncaught.) -/
theorem C9_amended_llm_outage (s : WFState) (credit : CreditResult) (l1 l2 : Option String) :
    sameButResponse (salesRun s l1) (salesRun s l2) ∧
    sameButResponse (underwritingRun s credit l1) (underwritingRun s credit l2) ∧
    sameButResponse (documentRun s l1) (documentRun s l2) ∧
    isFixedResp (salesRun s none).bot_response = true ∧
    isFixedResp (underwritingRun s credit none).bot_response = true ∧
    isFixedResp (documentRun s none).bot_response = true := by
  refine ⟨?_, ?_, ?_, ?_, ?_, ?_⟩
  · unfold sameButResponse salesRun
    dsimp only
    split_ifs <;> rfl
  · unfold sameButResponse underwritingRun
    by_cases hc : s.awaiting_pan ∧ s.pan_number = none ∧ s.user_message ≠ ""
    · rw [if_pos hc, if_pos hc]
      cases searchFirst matchPanAt (s.user_message.data.map Char.toUpper) with
      | none => rfl
      | some pan =>
        unfold underwritingCore
        dsimp only
        split_ifs <;> rfl
    · rw [if_neg hc, if_neg hc]
      unfold underwritingCore
      dsimp only
      split_ifs <;> rfl
  · unfold sameButResponse documentRun
    dsimp only
  · unfold salesRun
    dsimp only
    split_ifs <;> rfl
  · unfold underwritingRun
    by_cases hc : s.awaiting_pan ∧ s.pan_number = none ∧ s.user_message ≠ ""
    · rw [if_pos hc]
      cases searchFirst matchPanAt (s.user_message.data.map Char.toUpper) with
      | none => rfl
      | some pan =>
        unfold underwritingCore
        dsimp only
        split_ifs <;> rfl
    · rw [if_neg hc]
      unfold underwritingCore
      dsimp only
      split_ifs <;> rfl
  · unfold documentRun
    dsimp only
    split_ifs <;> rfl

/-- C9, counterexample: a PDF document-generation failure in the sanction
stage is caught, but it changes the routing — on success the next handler
is `completed`, on failure the session stays with the `sanction` handler
for a retry — contradicting "an outage never changes the routing". -/
theorem C9_counterexample_sanction_pdf :
    (sanctionRun baseState (some "uploads/letter.pdf") (some "msg")).next_agent
      = "completed" ∧
    (sanctionRun baseState none (some "msg")).next_agent = "sanction" ∧
    ("completed" : String) ≠ "sanction" := by
  refine ⟨rfl, rfl, by decide⟩

/-! ## EMI mathematics -/

theorem annuityS_eq {r : ℚ} (hr : 0 < r) (n : ℕ) :
    annuityS r n = ((1 + r) ^ n - 1) / (r * (1 + r) ^ n) := by
  have h1 : (0 : ℚ) < 1 + r := by linarith
  have h1z : (1 + r) ≠ 0 := ne_of_gt h1
  have hrz : r ≠ 0 := ne_of_gt hr
  induction n with
  | zero => simp [annuityS]
  | succ n ih =>
    have hpz : (1 + r) ^ n ≠ 0 := pow_ne_zero _ h1z
    rw [annuityS, Finset.sum_range_succ, ← annuityS, ih]
    field_simp
    ring

theorem annuityS_pos {r : ℚ} (hr : 0 < r) {n : ℕ} (hn : 1 ≤ n) : 0 < annuityS r n := by
  have h1 : (0 : ℚ) < 1 + r := by linarith
  have hx : (0 : ℚ) < 1 / (1 + r) := by positivity
  exact Finset.sum_pos (fun i _ => pow_pos hx _) (Finset.nonempty_range_iff.mpr (by omega))

theorem annuityS_lt {r : ℚ} (hr : 0 < r) {n : ℕ} (hn : 1 ≤ n) : annuityS r n < n := by
  have h1 : (0 : ℚ) < 1 + r := by linarith
  have hx0 : (0 : ℚ) ≤ 1 / (1 + r) := by positivity
  have hx1 : (1 : ℚ) / (1 + r) < 1 := by
    rw [div_lt_one h1]; linarith
  calc annuityS r n < ∑ _k in Finset.range n, (1 : ℚ) :=
        Finset.sum_lt_sum_of_nonempty (Finset.nonempty_range_iff.mpr (by omega))
          (fun i _ => pow_lt_one hx0 hx1 (Nat.succ_ne_zero i))
    _ = n := by simp

theorem annuityS_anti_r {r r' : ℚ} (hr : 0 < r) (hrr : r < r') {n : ℕ} (hn : 1 ≤ n) :
    annuityS r' n < annuityS r n := by
  have h1 : (0 : ℚ) < 1 + r := by linarith
  have h1' : (0 : ℚ) < 1 + r' := by linarith
  apply Finset.sum_lt_sum_of_nonempty (Finset.nonempty_range_iff.mpr (by omega))
  intro i _
  apply pow_lt_pow_left
  · exact one_div_lt_one_div_of_lt h1 (by linarith)
  · positivity
  · exact Nat.succ_ne_zero i

theorem annuityS_mono_n {r : ℚ} (hr : 0 < r) {n n' : ℕ} (h : n < n') :
    annuityS r n < annuityS r n' := by
  have h1 : (0 : ℚ) < 1 + r := by linarith
  have hx : (0 : ℚ) < 1 / (1 + r) := by positivity
  exact Finset.sum_lt_sum_of_subset (Finset.range_subset.mpr (le_of_lt h))
    (Finset.mem_range.mpr h) (by simp) (pow_pos hx _)
    (fun j _ _ => le_of_lt (pow_pos hx _))

theorem emiExact_eq_div {P r : ℚ} (hr : 0 < r) {n : ℕ} (hn : 1 ≤ n) :
    emiExact P r n = P / annuityS r n := by
  have h1 : (0 : ℚ) < 1 + r := by linarith
  have hgt : 1 < (1 + r) ^ n := one_lt_pow (by linarith) (by omega)
  have hdz : (1 + r) ^ n - 1 ≠ 0 := sub_ne_zero.mpr (ne_of_gt hgt)
  have hrz : r ≠ 0 := ne_of_gt hr
  have hpz : (1 + r) ^ n ≠ 0 := pow_ne_zero _ (ne_of_gt h1)
  rw [annuityS_eq hr]
  unfold emiExact
  field_simp
  ring

theorem emiExact_total {P r : ℚ} (hP : 0 < P) (hr : 0 < r) {n : ℕ} (hn : 1 ≤ n) :
    P < (n : ℚ) * emiExact P r n := by
  have hS : 0 < annuityS r n := annuityS_pos hr hn
  have hSn : annuityS r n < n := annuityS_lt hr hn
  have hn0 : (0 : ℚ) < n := by
    have : (1 : ℚ) ≤ n := by exact_mod_cast hn
    linarith
  rw [emiExact_eq_div hr hn]
  have h2 : P / (n : ℚ) < P / annuityS r n := div_lt_div_of_pos_left hP hS hSn
  calc P = (n : ℚ) * (P / n) := by field_simp
    _ < (n : ℚ) * (P / annuityS r n) := by exact mul_lt_mul_of_pos_left h2 hn0

theorem emiExact_lt_rate {P r r' : ℚ} (hP : 0 < P) (hr : 0 < r) (hrr : r < r')
    {n : ℕ} (hn : 1 ≤ n) : emiExact P r n < emiExact P r' n := by
  have hr' : 0 < r' := lt_trans hr hrr
  rw [emiExact_eq_div hr hn, emiExact_eq_div hr' hn]
  exact div_lt_div_of_pos_left hP (annuityS_pos hr' hn) (annuityS_anti_r hr hrr hn)

theorem emiExact_lt_principal {P P' r : ℚ} (hP : 0 < P) (hPP : P < P') (hr : 0 < r)
    {n : ℕ} (hn : 1 ≤ n) : emiExact P r n < emiExact P' r n := by
  rw [emiExact_eq_div hr hn, emiExact_eq_div hr hn]
  exact (div_lt_div_right (annuityS_pos hr hn)).mpr hPP

theorem emiExact_anti_n {P r : ℚ} (hP : 0 < P) (hr : 0 < r) {n n' : ℕ}
    (hn : 1 ≤ n) (hnn : n < n') : emiExact P r n' < emiExact P r n := by
  have hn' : 1 ≤ n' := le_trans hn (le_of_lt hnn)
  rw [emiExact_eq_div hr hn, emiExact_eq_div hr hn']
  exact div_lt_div_of_pos_left hP (annuityS_pos hr hn) (annuityS_mono_n hr hnn)

theorem calculate_emi_eq {P rate : ℚ} (h : rate ≠ 0) (n : ℕ) :
    calculate_emi P rate n = round2 (emiExact P (rate / (12 * 100)) n) := by
  have hz : ¬ (rate / (12 * 100 : ℚ) = 0) := div_ne_zero h (by norm_num)
  unfold calculate_emi emiExact
  dsimp only
  rw [if_neg hz]

/-- C3: `_calculate_emi` computes `monthlyRate = rate/1200`; with
`monthlyRate = 0` (i.e. rate 0) it returns exactly `P/n`, and otherwise it
returns `P·r·(1+r)^n / ((1+r)^n − 1)` with `r = rate/1200`, rounded to two
decimals — exactly the formula the claim states. -/
theorem C3_emi_reducing_balance (P rate : ℚ) (n : ℕ)
    (hP : 0 < P) (hrate : 0 ≤ rate) (hn : 1 ≤ n) :
    (rate = 0 → calculate_emi P rate n = P / (n : ℚ)) ∧
    (0 < rate → calculate_emi P rate n =
      round2 (P * (rate / 1200) * (1 + rate / 1200) ^ n / ((1 + rate / 1200) ^ n - 1))) := by
  constructor
  · intro h0
    subst h0
    unfold calculate_emi
    norm_num
  · intro hpos
    have h12 : rate / (12 * 100 : ℚ) = rate / 1200 := by norm_num
    rw [calculate_emi_eq (ne_of_gt hpos)]
    unfold emiExact
    rw [h12]

/-- C3, witness: rate 0 gives `P/n` exactly; a positive rate instantiates
the closed formula. -/
theorem C3_emi_reducing_balance_witness :
    calculate_emi 120000 0 12 = 120000 / ((12 : ℕ) : ℚ) ∧
    calculate_emi 240000 12 24 =
      round2 (240000 * ((12 : ℚ) / 1200) * (1 + (12 : ℚ) / 1200) ^ 24
        / ((1 + (12 : ℚ) / 1200) ^ 24 - 1)) :=
  ⟨(C3_emi_reducing_balance 120000 0 12 (by norm_num) (by norm_num) (by norm_num)).1 rfl,
   (C3_emi_reducing_balance 240000 12 24 (by norm_num) (by norm_num) (by norm_num)).2
     (by norm_num)⟩

/-- C4, counterexample: the claim `n · emi(P, rate, n) > P` fails for the
rounded EMI the code returns.  At `P = 1`, rate 1.2% and `n = 2` the exact
EMI is 0.5007…, which rounds to 0.50, so `n · emi = 1 = P`. -/
theorem C4_counterexample_rounded_total :
    (0 : ℚ) < 6 / 5 ∧ 2 * calculate_emi 1 (6 / 5) 2 = 1 ∧
    ¬ (1 < 2 * calculate_emi 1 (6 / 5) 2) := by
  have h : 2 * calculate_emi 1 (6 / 5) 2 = 1 := by decide
  exact ⟨by norm_num, h, by rw [h]; exact lt_irrefl 1⟩

/-- C4, amended: for the exact (unrounded) EMI value, total repayment
exceeds the principal (`n·emi > P`) and the EMI is strictly increasing in
rate and principal and strictly decreasing in tenure; the 2-decimal
rounding the code returns preserves these monotonicities non-strictly
(rounding can collapse `n·emi > P` to equality — see the
counterexample). -/
theorem C4_emi_monotonicity (P P' rate rate' : ℚ) (n n' : ℕ)
    (hP : 0 < P) (hPP : P < P') (hr : 0 < rate) (hrr : rate < rate')
    (hn : 1 ≤ n) (hnn : n < n') :
    P < (n : ℚ) * emiExact P (rate / 1200) n ∧
    emiExact P (rate / 1200) n < emiExact P (rate' / 1200) n ∧
    emiExact P (rate / 1200) n < emiExact P' (rate / 1200) n ∧
    emiExact P (rate / 1200) n' < emiExact P (rate / 1200) n ∧
    calculate_emi P rate n ≤ calculate_emi P rate' n ∧
    calculate_emi P rate n ≤ calculate_emi P' rate n ∧
    calculate_emi P rate n' ≤ calculate_emi P rate n := by
  have hr1200 : 0 < rate / 1200 := by positivity
  have hrr1200 : rate / 1200 < rate' / 1200 := by linarith
  have h12 : rate / (12 * 100 : ℚ) = rate / 1200 := by norm_num
  have h12' : rate' / (12 * 100 : ℚ) = rate' / 1200 := by norm_num
  refine ⟨emiExact_total hP hr1200 hn, emiExact_lt_rate hP hr1200 hrr1200 hn,
    emiExact_lt_principal hP hPP hr1200 hn, emiExact_anti_n hP hr1200 hn hnn, ?_, ?_, ?_⟩
  · rw [calculate_emi_eq (ne_of_gt hr), calculate_emi_eq (ne_of_gt (lt_trans hr hrr))]
    apply round2_mono
    rw [h12, h12']
    exact le_of_lt (emiExact_lt_rate hP hr1200 hrr1200 hn)
  · rw [calculate_emi_eq (ne_of_gt hr), calculate_emi_eq (ne_of_gt hr)]
    apply round2_mono
    rw [h12]
    exact le_of_lt (emiExact_lt_principal hP hPP hr1200 hn)
  · rw [calculate_emi_eq (ne_of_gt hr), calculate_emi_eq (ne_of_gt hr)]
    apply round2_mono
    rw [h12]
    exact le_of_lt (emiExact_anti_n hP hr1200 hn hnn)

/-- C4, witness for the amended theorem at `P = 100000 < 200000`,
rate `10 < 12`, tenure `12 < 24`. -/
theorem C4_emi_monotonicity_witness :
    (100000 : ℚ) < (12 : ℕ) * emiExact 100000 (10 / 1200) 12 ∧
    emiExact 100000 ((10 : ℚ) / 1200) 12 < emiExact 100000 ((12 : ℚ) / 1200) 12 ∧
    emiExact 100000 ((10 : ℚ) / 1200) 12 < emiExact 200000 ((10 : ℚ) / 1200) 12 ∧
    emiExact 100000 ((10 : ℚ) / 1200) 24 < emiExact 100000 ((10 : ℚ) / 1200) 12 ∧
    calculate_emi 100000 10 12 ≤ calculate_emi 100000 12 12 ∧
    calculate_emi 100000 10 12 ≤ calculate_emi 200000 10 12 ∧
    calculate_emi 100000 10 24 ≤ calculate_emi 100000 10 12 :=
  C4_emi_monotonicity 100000 200000 10 12 12 24 (by norm_num) (by norm_num)
    (by norm_num) (by norm_num) (by norm_num) (by norm_num)

/-! ## Lakh-pattern matcher correctness (claim C6) -/

theorem takeWhile_append_all {p : α → Bool} {l r : List α}
    (hl : ∀ c ∈ l, p c = true) (hr : ∀ c rs, r = c :: rs → p c = false) :
    (l ++ r).takeWhile p = l := by
  induction l with
  | nil =>
    cases r with
    | nil => rfl
    | cons c rs => simp [List.takeWhile_cons, hr c rs rfl]
  | cons a l2 ih =>
    have ha := hl a (by simp)
    simp only [List.cons_append, List.takeWhile_cons, ha, if_true]
    rw [ih (fun c hc => hl c (List.mem_cons_of_mem _ hc))]

theorem dropWhile_append_all {p : α → Bool} {l r : List α}
    (hl : ∀ c ∈ l, p c = true) (hr : ∀ c rs, r = c :: rs → p c = false) :
    (l ++ r).dropWhile p = r := by
  induction l with
  | nil =>
    cases r with
    | nil => rfl
    | cons c rs => simp [List.dropWhile_cons, hr c rs rfl]
  | cons a l2 ih =>
    have ha := hl a (by simp)
    simp only [List.cons_append, List.dropWhile_cons, ha, if_true]
    exact ih (fun c hc => hl c (List.mem_cons_of_mem _ hc))

theorem space_char_facts {c : Char} (h : isPySpace c = true) :
    isPyDigit c = false ∧ c ≠ '.' := by
  simp only [isPySpace, Bool.or_eq_true, beq_iff_eq] at h
  rcases h with ((((h | h) | h) | h) | h) | h <;> subst h <;> exact ⟨by decide, by decide⟩

theorem masterUnit_head {u : List Char} (hu : u ∈ masterLakhUnits) :
    ∃ c u2, u = c :: u2 ∧ isPyDigit c = false ∧ isPySpace c = false ∧ c ≠ '.' := by
  simp only [masterLakhUnits, List.mem_cons, List.not_mem_nil, or_false] at hu
  rcases hu with rfl | rfl | rfl | rfl <;>
    exact ⟨'l', _, rfl, by decide, by decide, by decide⟩

theorem litThenBoundary_complete (u post : List Char) (hb : wordBoundaryAfter post = true) :
    litThenBoundary u (u ++ post) = true := by
  induction u with
  | nil => simpa [litThenBoundary]
  | cons c w ih => simp [litThenBoundary, ih]

theorem litThenBoundary_sound (u : List Char) : ∀ l, litThenBoundary u l = true →
    ∃ post, l = u ++ post ∧ wordBoundaryAfter post = true := by
  induction u with
  | nil => exact fun l h => ⟨l, rfl, h⟩
  | cons c w ih =>
    intro l h
    cases l with
    | nil => simp [litThenBoundary] at h
    | cons d l2 =>
      simp only [litThenBoundary, Bool.and_eq_true, beq_iff_eq] at h
      obtain ⟨rfl, h2⟩ := h
      obtain ⟨post, rfl, hb⟩ := ih l2 h2
      exact ⟨post, rfl, hb⟩

theorem matchAnyUnit_complete {units : List (List Char)} {u post : List Char}
    (hu : u ∈ units) (hb : wordBoundaryAfter post = true) :
    matchAnyUnit units (u ++ post) = true := by
  unfold matchAnyUnit
  rw [List.any_eq_true]
  exact ⟨u, hu, litThenBoundary_complete u post hb⟩

theorem matchAnyUnit_sound {units : List (List Char)} {l : List Char}
    (h : matchAnyUnit units l = true) :
    ∃ u ∈ units, ∃ post, l = u ++ post ∧ wordBoundaryAfter post = true := by
  unfold matchAnyUnit at h
  rw [List.any_eq_true] at h
  obtain ⟨u, hu, hl⟩ := h
  obtain ⟨post, rfl, hb⟩ := litThenBoundary_sound u l hl
  exact ⟨u, hu, post, rfl, hb⟩

theorem matchLakhAt_complete {ds fs ws u post : List Char}
    (hne : ds ≠ []) (hd : ds.all isPyDigit = true) (hf : fs.all isPyDigit = true)
    (hw : ws.all isPySpace = true) (hu : u ∈ masterLakhUnits)
    (hb : wordBoundaryAfter post = true) :
    matchLakhAt masterLakhUnits
      (ds ++ ((if fs.isEmpty then [] else '.' :: fs) ++ (ws ++ (u ++ post))))
      = some (decimalVal ds fs) := by
  obtain ⟨cu, u2, hueq, hcud, hcus, hcudot⟩ := masterUnit_head hu
  have hdall := List.all_eq_true.mp hd
  have hfall := List.all_eq_true.mp hf
  have hwall := List.all_eq_true.mp hw
  have hwsHead : ∀ c rs, ws ++ (u ++ post) = c :: rs →
      isPyDigit c = false ∧ c ≠ '.' := by
    intro c rs hcr
    cases ws with
    | nil =>
      rw [List.nil_append, hueq, List.cons_append] at hcr
      injection hcr with h1 h2
      subst h1
      exact ⟨hcud, hcudot⟩
    | cons w ws2 =>
      rw [List.cons_append] at hcr
      injection hcr with h1 h2
      subst h1
      have hsf := space_char_facts (hwall w (by simp))
      exact ⟨hsf.1, hsf.2⟩
  have hdropSpace : (ws ++ (u ++ post)).dropWhile isPySpace = u ++ post := by
    apply dropWhile_append_all hwall
    intro c rs hcr
    rw [hueq, List.cons_append] at hcr
    injection hcr with h1 h2
    subst h1
    exact hcus
  have hmau : matchAnyUnit masterLakhUnits (u ++ post) = true := matchAnyUnit_complete hu hb
  have hdsE : ds.isEmpty = false := by
    cases ds with
    | nil => exact absurd rfl hne
    | cons a l => rfl
  by_cases hfe : fs.isEmpty
  · have hfs0 : fs = [] := by
      cases fs with
      | nil => rfl
      | cons a l => simp at hfe
    subst hfs0
    simp only [List.isEmpty_nil, if_true, List.nil_append]
    have htake : (ds ++ (ws ++ (u ++ post))).takeWhile isPyDigit = ds :=
      takeWhile_append_all hdall (fun c rs h => (hwsHead c rs h).1)
    have hdropD : (ds ++ (ws ++ (u ++ post))).dropWhile isPyDigit = ws ++ (u ++ post) :=
      dropWhile_append_all hdall (fun c rs h => (hwsHead c rs h).1)
    cases hws : ws ++ (u ++ post) with
    | nil =>
      rw [hueq] at hws
      rcases List.append_eq_nil.mp hws with ⟨-, h2⟩
      simp at h2
    | cons c rs =>
      rw [hws] at htake hdropD hdropSpace
      unfold matchLakhAt
      dsimp only
      rw [htake, hdropD, hdsE]
      simp only [Bool.false_eq_true, if_false]
      rw [if_neg (hwsHead c rs hws).2]
      dsimp only
      rw [hdropSpace, hmau]
      simp
  · have hfE : fs.isEmpty = false := by
      cases fs with
      | nil => simp at hfe
      | cons a l => rfl
    simp only [hfE, Bool.false_eq_true, if_false, List.cons_append]
    have hdot : isPyDigit ('.') = false := by decide
    have htake : (ds ++ ('.' :: (fs ++ (ws ++ (u ++ post))))).takeWhile isPyDigit = ds := by
      apply takeWhile_append_all hdall
      intro c rs h
      injection h with h1 h2
      subst h1
      exact hdot
    have hdropD : (ds ++ ('.' :: (fs ++ (ws ++ (u ++ post))))).dropWhile isPyDigit =
        '.' :: (fs ++ (ws ++ (u ++ post))) := by
      apply dropWhile_append_all hdall
      intro c rs h
      injection h with h1 h2
      subst h1
      exact hdot
    have htakeF : (fs ++ (ws ++ (u ++ post))).takeWhile isPyDigit = fs :=
      takeWhile_append_all hfall (fun c rs h => (hwsHead c rs h).1)
    have hdropF : (fs ++ (ws ++ (u ++ post))).dropWhile isPyDigit = ws ++ (u ++ post) :=
      dropWhile_append_all hfall (fun c rs h => (hwsHead c rs h).1)
    unfold matchLakhAt
    dsimp only
    rw [htake, hdropD, hdsE]
    simp only [Bool.false_eq_true, if_false]
    simp only [if_true]
    rw [htakeF, hdropF, hfE]
    simp only [Bool.false_eq_true, if_false]
    rw [hdropSpace, hmau]
    simp

theorem matchLakhAt_sound {l : List Char} {v : ℚ}
    (h : matchLakhAt masterLakhUnits l = some v) :
    ∃ ds fs ws u post, IsLakhDecomp l [] ds fs ws u post ∧ v = decimalVal ds fs := by
  unfold matchLakhAt at h
  dsimp only at h
  by_cases hE : (l.takeWhile isPyDigit).isEmpty = true
  · rw [if_pos hE] at h
    simp at h
  · rw [if_neg hE] at h
    have hdsne : l.takeWhile isPyDigit ≠ [] := by
      intro hnil
      rw [hnil] at hE
      exact hE rfl
    have hdall : (l.takeWhile isPyDigit).all isPyDigit = true :=
      List.all_eq_true.mpr (fun c hc => List.mem_takeWhile_imp hc)
    have hsplit : l = l.takeWhile isPyDigit ++ l.dropWhile isPyDigit :=
      (List.takeWhile_append_dropWhile _ _).symm
    cases hc : l.dropWhile isPyDigit with
    | nil =>
      rw [hc] at h
      dsimp only at h
      rw [show matchAnyUnit masterLakhUnits ([].dropWhile isPySpace) = false by decide] at h
      simp at h
    | cons c r =>
      rw [hc] at h
      dsimp only at h
      by_cases hcdot : c = '.'
      · subst hcdot
        rw [if_pos rfl] at h
        by_cases hfE : (r.takeWhile isPyDigit).isEmpty = true
        · rw [if_pos hfE] at h
          dsimp only at h
          rw [List.dropWhile_cons_of_neg (by decide : ¬ isPySpace ('.') = true)] at h
          by_cases hmu : matchAnyUnit masterLakhUnits ('.' :: r) = true
          · obtain ⟨u, hu, post, hup, hb⟩ := matchAnyUnit_sound hmu
            obtain ⟨cu, u2, hueq, -, -, hcudot⟩ := masterUnit_head hu
            rw [hueq, List.cons_append] at hup
            injection hup with h1 h2
            exact absurd h1.symm hcudot
          · rw [if_neg hmu] at h
            simp at h
        · rw [if_neg hfE] at h
          dsimp only at h
          by_cases hmu : matchAnyUnit masterLakhUnits
              ((r.dropWhile isPyDigit).dropWhile isPySpace) = true
          · obtain ⟨u, hu, post, hup, hb⟩ := matchAnyUnit_sound hmu
            rw [if_pos hmu] at h
            have hveq : v = decimalVal (l.takeWhile isPyDigit) (r.takeWhile isPyDigit) :=
              (Option.some.inj h).symm
            have hfsne : (r.takeWhile isPyDigit).isEmpty = false := by
              cases hrt : r.takeWhile isPyDigit with
              | nil => rw [hrt] at hfE; exact absurd rfl hfE
              | cons a t => rfl
            refine ⟨l.takeWhile isPyDigit, r.takeWhile isPyDigit,
              (r.dropWhile isPyDigit).takeWhile isPySpace, u, post,
              ⟨?_, hdsne, hdall, ?_, ?_, hu, hb⟩, hveq⟩
            · simp only [List.nil_append, hfsne, Bool.false_eq_true, if_false,
                List.cons_append]
              calc l = List.takeWhile isPyDigit l ++ List.dropWhile isPyDigit l := hsplit
                _ = List.takeWhile isPyDigit l ++ ('.' :: r) := by rw [hc]
                _ = List.takeWhile isPyDigit l ++
                    ('.' :: (List.takeWhile isPyDigit r ++
                      ((r.dropWhile isPyDigit).takeWhile isPySpace ++ (u ++ post)))) := by
                  rw [← hup, List.takeWhile_append_dropWhile, List.takeWhile_append_dropWhile]
            · exact List.all_eq_true.mpr (fun x hx => List.mem_takeWhile_imp hx)
            · exact List.all_eq_true.mpr (fun x hx => List.mem_takeWhile_imp hx)
          · rw [if_neg hmu] at h
            simp at h
      · rw [if_neg hcdot] at h
        dsimp only at h
        by_cases hmu : matchAnyUnit masterLakhUnits
            ((c :: r).dropWhile isPySpace) = true
        · obtain ⟨u, hu, post, hup, hb⟩ := matchAnyUnit_sound hmu
          rw [if_pos hmu] at h
          refine ⟨l.takeWhile isPyDigit, [], (c :: r).takeWhile isPySpace, u, post,
            ⟨?_, hdsne, hdall, rfl, ?_, hu, hb⟩, (Option.some.inj h).symm⟩
          · simp only [List.nil_append, List.isEmpty_nil, if_true]
            calc l = List.takeWhile isPyDigit l ++ List.dropWhile isPyDigit l := hsplit
              _ = List.takeWhile isPyDigit l ++ (c :: r) := by rw [hc]
              _ = List.takeWhile isPyDigit l ++
                  ((c :: r).takeWhile isPySpace ++ (u ++ post)) := by
                rw [← hup, List.takeWhile_append_dropWhile]
          · exact List.all_eq_true.mpr (fun x hx => List.mem_takeWhile_imp hx)
        · rw [if_neg hmu] at h
          simp at h

theorem searchFirst_some_append {α : Type} (m : List Char → Option α) (pre : List Char)
    {suf : List Char} {v : α} (hne : suf ≠ []) (h : m suf = some v) :
    ∃ w, searchFirst m (pre ++ suf) = some w := by
  induction pre with
  | nil =>
    cases suf with
    | nil => exact absurd rfl hne
    | cons c t =>
      refine ⟨v, ?_⟩
      rw [List.nil_append]
      unfold searchFirst
      rw [h]
  | cons p ps ih =>
    rw [List.cons_append]
    cases hm : m (p :: (ps ++ suf)) with
    | some w =>
      refine ⟨w, ?_⟩
      unfold searchFirst
      rw [hm]
    | none =>
      obtain ⟨w, hw⟩ := ih
      refine ⟨w, ?_⟩
      unfold searchFirst
      rw [hm]
      exact hw

theorem searchFirst_sound {α : Type} {m : List Char → Option α} {t : List Char} {w : α}
    (h : searchFirst m t = some w) :
    ∃ pre suf, t = pre ++ suf ∧ m suf = some w := by
  induction t with
  | nil => simp [searchFirst] at h
  | cons c r ih =>
    unfold searchFirst at h
    cases hm : m (c :: r) with
    | some v =>
      rw [hm] at h
      exact ⟨[], c :: r, rfl, hm.trans h⟩
    | none =>
      rw [hm] at h
      obtain ⟨pre, suf, heq, hms⟩ := ih h
      exact ⟨c :: pre, suf, by rw [heq, List.cons_append], hms⟩

/-- The spec-side amount-priority property holds of the master extractor
(`MasterAgentLLM._extract_amount`, whose lakh alternation is the full
`lakh|lakhs|lac|l` list of the spec): whenever the lowered text contains a
lakh-suffixed number, the extractor returns a lakh-derived value times
100000, regardless of any bare digit runs also present. -/
theorem master_lakh_priority (text : String) (hl : ContainsLakh (pyLower text)) :
    ∃ v, masterExtractAmount text = some (v * 100000) ∧ LakhDerived (pyLower text) v := by
  obtain ⟨pre, ds, fs, ws, u, post, hdec⟩ := hl
  unfold IsLakhDecomp at hdec
  obtain ⟨heq, hdsne, hdall, hfall, hwall, hu, hbnd⟩ := hdec
  have hmatch := matchLakhAt_complete hdsne hdall hfall hwall hu hbnd
  have hTne : ds ++ ((if fs.isEmpty then [] else '.' :: fs) ++ (ws ++ (u ++ post))) ≠ [] := by
    intro h0
    exact hdsne (List.append_eq_nil.mp h0).1
  obtain ⟨w, hw⟩ := searchFirst_some_append (matchLakhAt masterLakhUnits) pre hTne hmatch
  rw [← heq] at hw
  obtain ⟨pre2, suf2, heq2, hm2⟩ := searchFirst_sound hw
  obtain ⟨ds2, fs2, ws2, u2, post2, hdec2, hveq2⟩ := matchLakhAt_sound hm2
  unfold IsLakhDecomp at hdec2
  obtain ⟨ht2, hrest⟩ := hdec2
  rw [List.nil_append] at ht2
  refine ⟨w, ?_, pre2, ds2, fs2, ws2, u2, post2, ⟨?_, hrest⟩, hveq2⟩
  · unfold masterExtractAmount
    dsimp only
    rw [hw]
  · rw [heq2, ht2]

/-- **C6.** The amount-priority claim — a string containing both a
lakh-suffixed number (the spec's lakh alternatives are `lakh|lakhs|lac|l`)
and a bare 5-digit number always extracts to the lakh-derived value times
100000 — fails for `SalesAgent._extract_amount`, whose lakh alternation
omits `lac`: the text "i need 5 lac and 99000" contains the lakh-suffixed
number 5 (lakh-derived value 500000) and the bare 5-digit number 99000,
yet the sales extractor returns the bare-digit 99000, which is not 5 times
100000.  `MasterAgentLLM._extract_amount` returns the lakh-derived 500000
on the same text (the general positive statement for the master extractor
is `master_lakh_priority`). -/
theorem C6_sales_lac_divergence :
    LakhDerived (pyLower "i need 5 lac and 99000") 5 ∧
    ContainsBare5 (pyLower "i need 5 lac and 99000") ∧
    masterExtractAmount "i need 5 lac and 99000" = some (5 * 100000) ∧
    salesExtractAmount "i need 5 lac and 99000" = some 99000 ∧
    (99000 : ℚ) ≠ 5 * 100000 := by
  refine ⟨⟨"i need ".data, ['5'], [], [' '], ['l','a','c'], " and 99000".data,
    ?_, by decide⟩,
    ⟨"i need 5 lac and ".data, "99000".data, [], by decide⟩,
    by decide, by decide, by decide⟩
  unfold IsLakhDecomp
  decide

end LaunchPad
